import Mathlib

/-!
# WuKongIM message delivery core

A shallow embedding of `internal/server/deliver_manager.go` (worker pool dispatch,
tag resolution, local deliver step) and of the handlers of `internal/server/server_cluster.go`
that serve it, together with theorems about them.

Conventions of the embedding:

* Go `string` is `String`, `[]byte` is `Bytes` (a list of byte values), `int64` is `Int`,
  unsigned integers are `Nat`; Go `int` arithmetic is wrapped to 64 bits with `goInt`.
* Calls on collaborators whose code lives elsewhere (user directory, cluster client, AES/MD5
  helpers, frame encoder, clock, connection write) are fields of `Server`.
* Side effects are recorded, in program order, as a list of `Event`s.  An event issued inside the
  body of the nested `(conn, message)` loop of `deliverr.deliver` carries the `Site` of the
  iteration that issued it.
* A cluster handler is a function from the request body to the list of its `ClusterEffect`s,
  the answer written to the `wkserver.Context` being one of them.
-/

namespace WuKongIM

/-! ## Data model -/

/-- Go `[]byte`. -/
abbrev Bytes := List Nat

/-- Go `[]byte(s)` for a string `s`. -/
def stringBytes (s : String) : Bytes := s.toUTF8.data.toList.map UInt8.toNat

/-- The flags of `wkproto.Framer` read by the delivery code. -/
structure Framer where
  redDot : Bool
  syncOnce : Bool
  noPersist : Bool
deriving DecidableEq, Repr

/-- The fields of `wkproto.SendPacket` read by the delivery code. -/
structure SendPacket where
  framer : Framer
  setting : Nat
  clientSeq : Nat
  clientMsgNo : String
  streamNo : String
  channelID : String
  channelType : Nat
  expire : Nat
  topic : String
  payload : Bytes
deriving DecidableEq, Repr

/-- The fields of `wkproto.RecvPacket` written by the delivery code. -/
structure RecvPacket where
  framer : Framer
  setting : Nat
  msgKey : String
  messageID : Int
  messageSeq : Nat
  clientMsgNo : String
  streamNo : String
  streamFlag : Nat
  fromUID : String
  expire : Nat
  channelID : String
  channelType : Nat
  topic : String
  timestamp : Int
  payload : Bytes
  clientSeq : Nat
deriving DecidableEq, Repr

/-- A channel message as handed to the delivery code (`ReactorChannelMessage`). -/
structure ReactorChannelMessage where
  fromConnId : Int
  fromUid : String
  fromDeviceId : String
  fromNodeId : Nat
  messageId : Int
  messageSeq : Nat
  sendPacket : SendPacket
deriving DecidableEq, Repr

/-- The identity and crypto fields of a connection (`connContext`). -/
structure ConnContext where
  uid : String
  deviceId : String
  deviceFlag : Nat
  deviceLevel : Nat
  connId : Int
  protoVersion : Nat
  realNodeId : Nat
  proxyConnId : Int
  aesKey : String
  aesIV : String
deriving DecidableEq, Repr

/-- The argument of `retryManager.addRetry`. -/
structure retryMessage where
  uid : String
  connId : Int
  messageId : Int
  recvPacketData : Bytes
deriving DecidableEq, Repr

/-- One partition of a receiver tag (`nodeUsers`). -/
structure nodeUsers where
  uids : List String
  nodeId : Nat
deriving DecidableEq, Repr

/-- A receiver tag (`tag`). -/
structure ReceiverTag where
  key : String
  users : List nodeUsers
deriving DecidableEq, Repr

/-- A handle on a channel object (`*channel`), used only to ask for a fresh receiver tag. -/
abbrev ChannelRef := Nat

/-- A delivery request (`deliverReq`). -/
structure deliverReq where
  ch : ChannelRef
  channelId : String
  channelType : Nat
  channelKey : String
  tagKey : String
  messages : List ReactorChannelMessage
deriving DecidableEq, Repr

/-- The request body of `/wk/getNodeUidsByTag` (`tagReq`). -/
structure tagReq where
  channelId : String
  channelType : Nat
  tagKey : String
  nodeId : Nat
deriving DecidableEq, Repr

/-- The response body of `/wk/getNodeUidsByTag` (`tagResp`). -/
structure tagResp where
  tagKey : String
  uids : List String
deriving DecidableEq, Repr

/-- A cluster RPC response (`proto.Response`). -/
structure Response where
  status : Nat
  body : Bytes
deriving DecidableEq, Repr

/-- What the user directory knows about a connected user (`userHandler`): the answers of
`hasMasterDevice()` and `getConns()`. -/
structure UserHandler where
  hasMasterDevice : Bool
  conns : List ConnContext
deriving DecidableEq, Repr

/-! ## Effects -/

/-- A call with an effect outside the delivery code. -/
inductive Effect where
  | debug (msg : String)
  | error (msg : String)
  | messageTrace (msg clientMsgNo operationName : String)
  | addRetry (r : retryMessage)
  | connWrite (conn : ConnContext) (data : Bytes) (frameType : Nat)
  | connClose (conn : ConnContext)
  | notifyOfflineMsg (message : ReactorChannelMessage) (uids : List String)
  | conversationPush (channelId : String) (channelType : Nat) (uids : List String)
      (messages : List ReactorChannelMessage)
  | nodeDeliver (nodeId : Nat) (req : deliverReq)
  | makeReceiverTag (ch : ChannelRef)
  | request (nodeId : Nat) (path : String) (data : Bytes)
  | addOrUpdateReceiverTag (tagKey : String) (users : List nodeUsers)
deriving DecidableEq, Repr

/-- One iteration of the nested `(conn, message)` loop of `deliverr.deliver`: its ordinal `tick`
among all such iterations, and the loop variables. -/
structure Site where
  tick : Nat
  conn : ConnContext
  message : ReactorChannelMessage
deriving DecidableEq, Repr

/-- An effect together with the loop iteration that issued it (`none` outside the loop). -/
structure Event where
  site : Option Site
  eff : Effect
deriving DecidableEq, Repr

/-! ## Collaborators -/

/-- The options read by the delivery code (`s.opts`). -/
structure Options where
  /-- Option `opts.Cluster.NodeId`. -/
  nodeId : Nat
  /-- Option `opts.Logger.TraceOn`. -/
  traceOn : Bool
  /-- Option `opts.SystemUID`. -/
  systemUID : String
  /-- Option `opts.Deliver.MaxRetry`. -/
  maxRetry : Int

/-- The collaborators of the delivery code reachable from `*Server`, and the protocol constants
of `wkproto` and `proto`.  The clock, `conn.write` and `conn.isClosed` are indexed by the tick of
the loop iteration in which they are called. -/
structure Server where
  opts : Options
  /-- Constant `wkproto.ChannelTypePerson`. -/
  channelTypePerson : Nat
  /-- Constant `wkproto.StreamFlagIng`. -/
  streamFlagIng : Nat
  /-- Constant `wkproto.RECV`. -/
  frameTypeRECV : Nat
  /-- Constant `proto.Status_OK`. -/
  statusOK : Nat
  /-- Lookup `userReactor.getUser`. -/
  getUser : String → Option UserHandler
  /-- Helper `wkutil.AesEncryptPkcs7Base64 data key iv`. -/
  aesEncryptPkcs7Base64 : Bytes → Bytes → Bytes → Except String Bytes
  /-- Helper `wkutil.MD5(string(b))` as a function of the bytes `b`. -/
  md5 : Bytes → String
  /-- Method `RecvPacket.VerityString`. -/
  verityString : RecvPacket → String
  /-- Encoder `opts.Proto.EncodeFrame`. -/
  encodeFrame : RecvPacket → Nat → Except String Bytes
  /-- Clock `time.Now().Unix()`. -/
  now : Nat → Int
  /-- Whether `conn.write` returns without error. -/
  writeOk : Nat → ConnContext → Bytes → Bool
  /-- Method `conn.isClosed()`. -/
  isClosed : Nat → ConnContext → Bool
  /-- Lookup `cluster.LeaderOfChannelForRead`, reduced to the id of the leader. -/
  leaderOfChannelForRead : String → Nat → Except String Nat
  /-- Method `channel.makeReceiverTag`. -/
  makeReceiverTag : ChannelRef → Except String ReceiverTag
  /-- Call `cluster.RequestWithContext` under the 5 second deadline; a timeout is an error. -/
  requestWithContext : Nat → String → Bytes → Except String Response
  /-- Method `tagReq.Marshal`. -/
  marshalTagReq : tagReq → Bytes
  /-- Method `tagResp.Unmarshal`. -/
  unmarshalTagResp : Bytes → Except String tagResp

/-- Go `int32(x)` of an `int64`. -/
def int32 (x : Int) : Int := (x + 2 ^ 31) % 2 ^ 32 - 2 ^ 31

/-! ## Local deliver step -/

/-- The function `encryptMessagePayload`. -/
def encryptMessagePayload (s : Server) (payload : Bytes) (conn : ConnContext) :
    Except String Bytes :=
  match s.aesEncryptPkcs7Base64 payload (stringBytes conn.aesKey) (stringBytes conn.aesIV) with
  | .error err => .error err
  | .ok payloadEnc => .ok payloadEnc

/-- The function `makeMsgKey`; the error case also carries the global logger call it makes. -/
def makeMsgKey (s : Server) (signStr : String) (conn : ConnContext) :
    Except (Effect × String) String :=
  match s.aesEncryptPkcs7Base64 (stringBytes signStr) (stringBytes conn.aesKey)
      (stringBytes conn.aesIV) with
  | .error err => .error (.error "生成MsgKey失败！", err)
  | .ok msgKeyBytes => .ok (s.md5 msgKeyBytes)

/-- The accumulators of the recipient loop of `deliverr.deliver`. -/
structure Recipients where
  webhookOfflineUids : List String
  offlineUserCount : Nat
  allConns : List ConnContext
  onlineUserCount : Nat
deriving DecidableEq, Repr

namespace deliverr

/-- The recipient loop of `deliver` (`for _, toUid := range uids`), from the given accumulators. -/
def classify (s : Server) : List String → Recipients → Recipients
  | [], acc => acc
  | toUid :: rest, acc =>
    match s.getUser toUid with
    | none =>
      classify s rest { acc with
        webhookOfflineUids := acc.webhookOfflineUids ++ [toUid]
        offlineUserCount := acc.offlineUserCount + 1 }
    | some userHandler =>
      let acc :=
        if !userHandler.hasMasterDevice then
          { acc with webhookOfflineUids := acc.webhookOfflineUids ++ [toUid] }
        else acc
      let conns := userHandler.conns
      if conns.length = 0 then
        classify s rest { acc with
          webhookOfflineUids := acc.webhookOfflineUids ++ [toUid]
          offlineUserCount := acc.offlineUserCount + 1 }
      else
        classify s rest { acc with
          allConns := acc.allConns ++ conns
          onlineUserCount := acc.onlineUserCount + 1 }

/-- The recipient loop of `deliver` run from the initial (empty) accumulators. -/
def recipients (s : Server) (uids : List String) : Recipients :=
  classify s uids
    { webhookOfflineUids := [], offlineUserCount := 0, allConns := [], onlineUserCount := 0 }

/-- The tracing block of `deliver` that follows the recipient loop. -/
def traceDeliver (s : Server) (req : deliverReq) (uids : List String) : List Event :=
  if s.opts.traceOn then
    req.messages.flatMap fun msg =>
      if msg.sendPacket.channelType = s.channelTypePerson then
        let toUid := msg.sendPacket.channelID
        if uids.any (fun uid => uid == toUid) then
          [⟨none, .messageTrace "投递消息" msg.sendPacket.clientMsgNo "deliverMessage"⟩]
        else []
      else []
  else []

/-- The receive packet built for `(conn, message)` up to and including the red-dot rule, before
the payload is encrypted. -/
def newRecvPacket (s : Server) (tick : Nat) (conn : ConnContext)
    (message : ReactorChannelMessage) : RecvPacket :=
  let sendPacket := message.sendPacket
  let fromUid :=
    if sendPacket.channelType = s.channelTypePerson ∧ message.fromUid = s.opts.systemUID then ""
    else message.fromUid
  let recvPacket : RecvPacket :=
    { framer :=
        { redDot := sendPacket.framer.redDot
          syncOnce := sendPacket.framer.syncOnce
          noPersist := sendPacket.framer.noPersist }
      setting := sendPacket.setting
      msgKey := ""
      messageID := message.messageId
      messageSeq := message.messageSeq
      clientMsgNo := sendPacket.clientMsgNo
      streamNo := sendPacket.streamNo
      streamFlag := s.streamFlagIng
      fromUID := fromUid
      expire := sendPacket.expire
      channelID := sendPacket.channelID
      channelType := sendPacket.channelType
      topic := sendPacket.topic
      timestamp := int32 (s.now tick)
      payload := sendPacket.payload
      clientSeq := sendPacket.clientSeq }
  let recvPacket :=
    if recvPacket.channelType = s.channelTypePerson ∧ recvPacket.channelID = conn.uid then
      { recvPacket with channelID := recvPacket.fromUID }
    else recvPacket
  let recvPacket :=
    if conn.uid = recvPacket.fromUID then
      { recvPacket with framer := { recvPacket.framer with redDot := false } }
    else recvPacket
  recvPacket

/-- The packet handed to `EncodeFrame` for `(conn, message)`: `newRecvPacket` with the payload
encrypted and the message key set; on failure, the log calls of the failing step. -/
def sealedRecvPacket (s : Server) (tick : Nat) (conn : ConnContext)
    (message : ReactorChannelMessage) : Except (List Effect) RecvPacket :=
  let recvPacket := newRecvPacket s tick conn message
  match encryptMessagePayload s recvPacket.payload conn with
  | .error _ => .error [.error "加密payload失败！"]
  | .ok payloadEnc =>
    let recvPacket := { recvPacket with payload := payloadEnc }
    let signStr := s.verityString recvPacket
    match makeMsgKey s signStr conn with
    | .error (log, _) => .error [log, .error "生成MsgKey失败！"]
    | .ok msgKey => .ok { recvPacket with msgKey := msgKey }

/-- The effects of writing the encoded packet: retry enrollment, the write, and the close on a
failed write. -/
def emit (s : Server) (tick : Nat) (conn : ConnContext) (message : ReactorChannelMessage)
    (recvPacket : RecvPacket) (recvPacketData : Bytes) : List Effect :=
  (if !recvPacket.framer.noPersist then
      [Effect.addRetry
        { uid := conn.uid
          connId := conn.connId
          messageId := message.messageId
          recvPacketData := recvPacketData }]
    else [])
  ++ [Effect.connWrite conn recvPacketData s.frameTypeRECV]
  ++ (if s.writeOk tick conn recvPacketData then []
      else
        [Effect.error "write recvPacket failed"]
        ++ (if !s.isClosed tick conn then [Effect.connClose conn] else []))

/-- The effects of the body of the nested loop of `deliver` for `(conn, message)`. -/
def pairEffects (s : Server) (tick : Nat) (conn : ConnContext)
    (message : ReactorChannelMessage) : List Effect :=
  if conn.uid = message.fromUid ∧ conn.deviceId = message.fromDeviceId then []
  else
    [Effect.debug "deliver message to user"] ++
    match sealedRecvPacket s tick conn message with
    | .error logs => logs
    | .ok recvPacket =>
      match s.encodeFrame recvPacket conn.protoVersion with
      | .error _ => [.error "encode recvPacket failed"]
      | .ok recvPacketData => emit s tick conn message recvPacket recvPacketData

/-- The body of the nested loop of `deliver`, each effect tagged with its site. -/
def deliverPair (s : Server) (tick : Nat) (conn : ConnContext)
    (message : ReactorChannelMessage) : List Event :=
  (pairEffects s tick conn message).map fun eff => ⟨some ⟨tick, conn, message⟩, eff⟩

/-- The inner loop of `deliver` (`for _, message := range req.messages`). -/
def deliverMessages (s : Server) (conn : ConnContext) :
    Nat → List ReactorChannelMessage → List Event
  | _, [] => []
  | tick, message :: rest =>
    deliverPair s tick conn message ++ deliverMessages s conn (tick + 1) rest

/-- The outer loop of `deliver` (`for _, conn := range allConns`). -/
def deliverConns (s : Server) (messages : List ReactorChannelMessage) :
    Nat → List ConnContext → List Event
  | _, [] => []
  | tick, conn :: rest =>
    deliverMessages s conn tick messages ++ deliverConns s messages (tick + messages.length) rest

/-- The offline webhook block that ends `deliver`. -/
def notifyOffline (req : deliverReq) (webhookOfflineUids : List String) : List Event :=
  if webhookOfflineUids.length > 0 then
    req.messages.map fun message => ⟨none, .notifyOfflineMsg message webhookOfflineUids⟩
  else []

/-- The method `deliverr.deliver`: the effects of the local deliver step, the first loop iteration having
ordinal `tick`. -/
def deliver (s : Server) (tick : Nat) (req : deliverReq) (uids : List String) : List Event :=
  if uids.length = 0 then []
  else
    let r := recipients s uids
    traceDeliver s req uids
      ++ deliverConns s req.messages tick r.allConns
      ++ notifyOffline req r.webhookOfflineUids

/-- The number of loop iterations of `deliver`. -/
def deliverTicks (s : Server) (req : deliverReq) (uids : List String) : Nat :=
  if uids.length = 0 then 0 else (recipients s uids).allConns.length * req.messages.length


/-! ## Tag resolution and the per-partition split -/

end deliverr

/-- Modelled from the spec: the tag cache `tagManager`, whose code is outside the files at hand.
The spec describes it as "a mapping from `tagKey → ReceiverTag`"; the cache is kept as a list of
tags with distinct keys, most recently stored first. -/
structure tagManager where
  tags : List ReceiverTag
deriving DecidableEq, Repr

/-- Modelled from the spec: the lookup `tagManager.getReceiverTag` ("If a tag with `tagKey` is
cached, return it"). -/
def tagManager.getReceiverTag (tm : tagManager) (tagKey : String) : Option ReceiverTag :=
  tm.tags.find? fun tg => tg.key == tagKey

/-- Modelled from the spec: the update `tagManager.addOrUpdateReceiverTag` ("Insert a tag into
the local `TagManager`"); it returns the stored tag. -/
def tagManager.addOrUpdateReceiverTag (tm : tagManager) (tagKey : String)
    (users : List nodeUsers) : ReceiverTag × tagManager :=
  let tg : ReceiverTag := { key := tagKey, users := users }
  (tg, { tags := tg :: tm.tags.filter fun old => old.key != tagKey })

namespace deliverr

/-- The method `deliverr.requestNodeChannelTag`, after the request has been marshalled and
sent. -/
def requestNodeChannelTag (s : Server) (nodeId : Nat) (req : tagReq) : Except String tagResp :=
  let data := s.marshalTagReq req
  match s.requestWithContext nodeId "/wk/getNodeUidsByTag" data with
  | .error err => .error err
  | .ok resp =>
    if resp.status ≠ s.statusOK then .error "requestNodeChannelTag failed"
    else
      match s.unmarshalTagResp resp.body with
      | .error err => .error err
      | .ok tagResp => .ok tagResp

/-- The guarded tracing loops of `handleDeliverReq`: one `MessageTrace` per message when tracing
is on. -/
def traceMessages (s : Server) (req : deliverReq) (msg operationName : String) : List Event :=
  if s.opts.traceOn then
    req.messages.map fun m => ⟨none, .messageTrace msg m.sendPacket.clientMsgNo operationName⟩
  else []

/-- The first half of `handleDeliverReq`: the tag for the request (or `none` when the request is
abandoned), the effects of obtaining it and the tag cache afterwards. -/
def resolveTag (s : Server) (tm : tagManager) (req : deliverReq) :
    List Event × Option ReceiverTag × tagManager :=
  match tm.getReceiverTag req.tagKey with
  | some tg => ([], some tg, tm)
  | none =>
    match s.leaderOfChannelForRead req.channelId req.channelType with
    | .error _ => ([⟨none, .error "getLeaderOfChannel failed"⟩], none, tm)
    | .ok leaderId =>
      if leaderId = s.opts.nodeId then
        let pre := traceMessages s req "生成接收者tag" "makeReceiverTag"
          ++ [⟨none, .makeReceiverTag req.ch⟩]
        match s.makeReceiverTag req.ch with
        | .error _ =>
          (pre ++ [⟨none, .error "handleDeliverReq:makeReceiverTag failed"⟩]
            ++ traceMessages s req "生成接收者tag失败" "makeReceiverTag", none, tm)
        | .ok tg => (pre, some tg, tm)
      else
        let treq : tagReq :=
          { channelId := req.channelId
            channelType := req.channelType
            tagKey := req.tagKey
            nodeId := s.opts.nodeId }
        let pre := traceMessages s req "请求接受者tag" "requestReceiverTag"
          ++ [⟨none, .request leaderId "/wk/getNodeUidsByTag" (s.marshalTagReq treq)⟩]
        match requestNodeChannelTag s leaderId treq with
        | .error _ =>
          (pre ++ [⟨none, .error "requestNodeTag failed"⟩]
            ++ traceMessages s req "请求接受者tag失败" "requestReceiverTag", none, tm)
        | .ok tagResp =>
          let users : List nodeUsers := [{ uids := tagResp.uids, nodeId := s.opts.nodeId }]
          let r := tm.addOrUpdateReceiverTag tagResp.tagKey users
          (pre ++ [⟨none, .addOrUpdateReceiverTag tagResp.tagKey users⟩], some r.1, r.2)

/-- The effects of one iteration of the partition loop of `handleDeliverReq`. -/
def deliverPartition (s : Server) (tick : Nat) (req : deliverReq) (nodeUser : nodeUsers) :
    List Event :=
  if s.opts.nodeId = nodeUser.nodeId then
    [⟨none, .conversationPush req.channelId req.channelType nodeUser.uids req.messages⟩]
      ++ deliver s tick req nodeUser.uids
  else
    traceMessages s req "转发投递消息" "forwardDeliver"
      ++ [⟨none, .nodeDeliver nodeUser.nodeId req⟩]

/-- The ticks used up by one iteration of the partition loop. -/
def partitionTicks (s : Server) (req : deliverReq) (nodeUser : nodeUsers) : Nat :=
  if s.opts.nodeId = nodeUser.nodeId then deliverTicks s req nodeUser.uids else 0

/-- The partition loop of `handleDeliverReq` (`for _, nodeUser := range tg.users`). -/
def deliverPartitions (s : Server) (req : deliverReq) : Nat → List nodeUsers → List Event
  | _, [] => []
  | tick, nodeUser :: rest =>
    deliverPartition s tick req nodeUser
      ++ deliverPartitions s req (tick + partitionTicks s req nodeUser) rest

/-- The method `deliverr.handleDeliverReq`: its effects and the tag cache afterwards. -/
def handleDeliverReq (s : Server) (tm : tagManager) (tick : Nat) (req : deliverReq) :
    List Event × tagManager :=
  match resolveTag s tm req with
  | (evs, none, tm1) => (evs, tm1)
  | (evs, some tg, tm1) => (evs ++ deliverPartitions s req tick tg.users, tm1)

end deliverr

/-! ## Worker pool dispatch -/

/-- Go `int` arithmetic: the value of an integer expression wrapped to 64 bits. -/
def goInt (x : Int) : Int := (x + 2 ^ 63) % 2 ^ 64 - 2 ^ 63

/-- A worker (`deliverr`), reduced to the content of its inbox channel `reqC`, oldest first. -/
structure deliverr where
  reqC : List deliverReq
deriving DecidableEq, Repr

/-- The capacity of `reqC` set by `newDeliverr`. -/
def deliverr.reqCCap : Nat := 1024

/-- The fields of `deliverManager` used by dispatch. -/
structure deliverManager where
  deliverrs : List deliverr
  nextDeliverIndex : Int
deriving DecidableEq, Repr

/-- Why a run of the dispatch code did not return. -/
inductive Abort where
  | panic
  | fuel
deriving DecidableEq, Repr

/-- One step of `handleDeliver`. -/
inductive DispatchStep where
  | full (i : Nat)
  | sent (i : Nat)
  | error (msg : String)
deriving DecidableEq, Repr

namespace deliverManager

/-- The method `deliverManager.nextDeliver`: the index of the chosen worker and the manager with
the counter advanced; `none` when Go panics (remainder by zero, index out of range). -/
def nextDeliver (d : deliverManager) : Option (Nat × deliverManager) :=
  if d.deliverrs.length = 0 then none
  else
    let i := Int.tmod d.nextDeliverIndex d.deliverrs.length
    let d1 := { d with nextDeliverIndex := goInt (d.nextDeliverIndex + 1) }
    if 0 ≤ i ∧ i < d.deliverrs.length then some (i.toNat, d1) else none

/-- The loop of `handleDeliver`, with `fuel` bounding the number of iterations. -/
def handleDeliverLoop (maxRetry : Int) (req : deliverReq) :
    Nat → Int → deliverManager → Except Abort (deliverManager × List DispatchStep)
  | 0, _, _ => .error .fuel
  | fuel + 1, retry, d =>
    if retry > maxRetry then
      .ok (d, [.error "deliver reqC full, retry too many times"])
    else
      match d.nextDeliver with
      | none => .error .panic
      | some (i, d1) =>
        match d1.deliverrs[i]? with
        | none => .error .panic
        | some deliver =>
          if deliver.reqC.length < deliverr.reqCCap then
            .ok ({ d1 with
                    deliverrs := d1.deliverrs.set i { deliver with reqC := deliver.reqC ++ [req] } },
                 [.sent i])
          else
            match handleDeliverLoop maxRetry req fuel (goInt (retry + 1)) d1 with
            | .error a => .error a
            | .ok (d2, steps) => .ok (d2, .full i :: steps)

/-- The method `deliverManager.handleDeliver`. -/
def handleDeliver (s : Server) (d : deliverManager) (req : deliverReq) (fuel : Nat) :
    Except Abort (deliverManager × List DispatchStep) :=
  handleDeliverLoop s.opts.maxRetry req fuel 0 d

/-- The outcome of `n` consecutive calls of `nextDeliver`: the workers returned, in call order,
and the manager afterwards. -/
def nextDeliverN : Nat → deliverManager → Option (List Nat × deliverManager)
  | 0, d => some ([], d)
  | n + 1, d =>
    match d.nextDeliver with
    | none => none
    | some (i, d1) =>
      match nextDeliverN n d1 with
      | none => none
      | some (is, d2) => some (i :: is, d2)

end deliverManager

/-! ## Cluster service handlers (`server_cluster.go`) -/

/-- One entry of a `ForwardSendackPacketSet`; the sendack packet is kept as its bytes. -/
structure ForwardSendackPacket where
  uid : String
  deviceId : String
  connId : Int
  sendack : Bytes
deriving DecidableEq, Repr

/-- The request body of `/wk/connWrite` (`FowardWriteReq`). -/
structure FowardWriteReq where
  uid : String
  connId : Int
  recvFrameCount : Nat
  data : Bytes
deriving DecidableEq, Repr

/-- The content of a node pong (`userConns`): the connection ids the sender knows for `uid`. -/
structure userConns where
  uid : String
  connIds : List Int
deriving DecidableEq, Repr

/-- A call with an effect outside a cluster handler, the answers written to the
`wkserver.Context` included. -/
inductive ClusterEffect where
  | error (msg : String)
  | info (msg : String)
  | debug (msg : String)
  | writeErr (err : String)
  | writeErrorAndStatus (err : String) (status : Nat)
  | writeOk
  | write (data : Bytes)
  | makeReceiverTag (ch : ChannelRef)
  | writePacketByConnId (uid : String) (connId : Int) (sendack : Bytes)
  | writeDirectly (conn : ConnContext) (data : Bytes) (recvFrameCount : Nat)
  | removeConnContextById (uid : String) (connId : Int)
  | connClose (conn : ConnContext)
  | step (uid : String) (actionType : Nat) (fromNodeId : Nat)
deriving DecidableEq, Repr

/-- The collaborators and constants of the cluster handlers, on top of those of the delivery
code. -/
structure ClusterServer extends Server where
  /-- Constant `errCodeNotIsChannelLeader`. -/
  errCodeNotIsChannelLeader : Nat
  /-- Constant `errCodeConnNotFound`. -/
  errCodeConnNotFound : Nat
  /-- The text of the error value `ErrConnNotFound`. -/
  errConnNotFound : String
  /-- The text of the error value `ErrChannelIdIsEmpty`. -/
  errChannelIdIsEmpty : String
  /-- Constant `UserActionNodePong`. -/
  userActionNodePong : Nat
  /-- Lookup `cluster.IsLeaderOfChannel`. -/
  isLeaderOfChannel : String → Nat → Except String Bool
  /-- Lookup `channelReactor.loadOrCreateChannel`. -/
  loadOrCreateChannel : String → Nat → ChannelRef
  /-- Method `tagReq.Unmarshal`. -/
  unmarshalTagReq : Bytes → Except String tagReq
  /-- Method `tagResp.Marshal`. -/
  marshalTagResp : tagResp → Bytes
  /-- Method `ForwardSendackPacketSet.Unmarshal`. -/
  unmarshalForwardSendackPacketSet : Bytes → Except String (List ForwardSendackPacket)
  /-- Method `FowardWriteReq.Unmarshal`. -/
  unmarshalFowardWriteReq : Bytes → Except String FowardWriteReq
  /-- Method `userConns.Unmarshal`. -/
  unmarshalUserConns : Bytes → Except String userConns
  /-- Lookup `userReactor.getConnContextById`. -/
  getConnContextById : String → Int → Option ConnContext
  /-- Whether the field `conn.conn` of a connection context is nil. -/
  netConnIsNil : ConnContext → Bool
  /-- The error returned by `userReactor.writePacketByConnId` for the entry at the given position
  of the set, if any. -/
  writePacketResult : Nat → String → Int → Bytes → Except String Unit

namespace Server

/-- The loop of `handleForwardSendack` over the entries of the set, from the entry at position
`i` on, up to the answer. -/
def forwardSendackLoop (s : ClusterServer) : Nat → List ForwardSendackPacket → List ClusterEffect
  | _, [] => [.writeOk]
  | i, forwardSendackPacket :: rest =>
    match s.getConnContextById forwardSendackPacket.uid forwardSendackPacket.connId with
    | none =>
      [.error "handleForwardSendack: conn not found", .writeErr "conn not found"]
    | some conn =>
      ClusterEffect.writePacketByConnId forwardSendackPacket.uid conn.connId
          forwardSendackPacket.sendack ::
        match s.writePacketResult i forwardSendackPacket.uid conn.connId
            forwardSendackPacket.sendack with
        | .error err =>
          [.error "handleForwardSendack: writePacketByConnId failed", .writeErr err]
        | .ok _ => forwardSendackLoop s (i + 1) rest

/-- The handler `Server.handleForwardSendack` on a request body. -/
def handleForwardSendack (s : ClusterServer) (body : Bytes) : List ClusterEffect :=
  match s.unmarshalForwardSendackPacketSet body with
  | .error err => [.error "handleForwardSendack Unmarshal err", .writeErr err]
  | .ok forwardSendackPacketSet =>
    if forwardSendackPacketSet.length = 0 then [.writeOk]
    else forwardSendackLoop s 0 forwardSendackPacketSet

/-- The handler `Server.handleConnWrite` on a request body. -/
def handleConnWrite (s : ClusterServer) (body : Bytes) : List ClusterEffect :=
  match s.unmarshalFowardWriteReq body with
  | .error err => [.error "handleConnWrite Unmarshal err", .writeErr err]
  | .ok fowardWriteReq =>
    if fowardWriteReq.data.length = 0 then [.writeOk]
    else
      match s.getConnContextById fowardWriteReq.uid fowardWriteReq.connId with
      | none =>
        [.error "handleConnWrite: conn not found",
          .writeErrorAndStatus s.errConnNotFound s.errCodeConnNotFound]
      | some conn =>
        if s.netConnIsNil conn then
          [.error "handleConnWrite: conn is nil",
            .writeErrorAndStatus s.errConnNotFound s.errCodeConnNotFound]
        else
          [.writeDirectly conn fowardWriteReq.data fowardWriteReq.recvFrameCount, .writeOk]

/-- The loop of `getNodeUidsByTag` that picks the uids of the first partition of the node. -/
def uidsOfNode (nodeId : Nat) : List nodeUsers → List String
  | [] => []
  | nodeUser :: rest => if nodeUser.nodeId = nodeId then nodeUser.uids else uidsOfNode nodeId rest

/-- The handler `Server.getNodeUidsByTag` on a request body, with the tag cache `tm`. -/
def getNodeUidsByTag (s : ClusterServer) (tm : tagManager) (body : Bytes) :
    List ClusterEffect :=
  match s.unmarshalTagReq body with
  | .error err => [.error "getNodeUidsByTag Unmarshal err", .writeErr err]
  | .ok req =>
    if req.channelId = "" then [.writeErr s.errChannelIdIsEmpty]
    else if req.nodeId = 0 then [.writeErr "node is 0"]
    else if req.tagKey = "" then [.writeErr "tagKey is nil"]
    else
      match s.isLeaderOfChannel req.channelId req.channelType with
      | .error err => [.error "getNodeUidsByTag: IsLeaderOfChannel failed", .writeErr err]
      | .ok isLeader =>
        if !isLeader then
          [.error "getNodeUidsByTag: not is leader",
            .writeErrorAndStatus "getNodeUidsByTag: not is leader" s.errCodeNotIsChannelLeader]
        else
          match tm.getReceiverTag req.tagKey with
          | some tag =>
            [.write (s.marshalTagResp
              { tagKey := tag.key, uids := uidsOfNode req.nodeId tag.users })]
          | none =>
            let ch := s.loadOrCreateChannel req.channelId req.channelType
            ClusterEffect.makeReceiverTag ch ::
              match s.makeReceiverTag ch with
              | .error err => [.error "getNodeUidsByTag: makeReceiverTag failed", .writeErr err]
              | .ok tag =>
                [.write (s.marshalTagResp
                  { tagKey := tag.key, uids := uidsOfNode req.nodeId tag.users })]

/-- The body of the loop of `handleNodePong` for one connection of the user. -/
def pongConn (fromNodeId : Nat) (userConns : userConns) (currentConn : ConnContext) :
    List ClusterEffect :=
  if currentConn.realNodeId ≠ fromNodeId then []
  else
    let exist := userConns.connIds.any fun connId =>
      decide (currentConn.realNodeId = fromNodeId ∧ currentConn.proxyConnId = connId)
    if !exist then
      [.info "handleNodePong: close conn",
        .removeConnContextById userConns.uid currentConn.connId,
        .connClose currentConn]
    else []

/-- The handler `Server.handleNodePong` on the content of a pong sent by `fromNodeId`; the
connections of the user are those `getConns()` returned before the loop. -/
def handleNodePong (s : ClusterServer) (fromNodeId : Nat) (content : Bytes) :
    List ClusterEffect :=
  match s.unmarshalUserConns content with
  | .error _ => [.error "handleNodePong Unmarshal"]
  | .ok userConns =>
    if userConns.uid = "" then [.info "handleNodePong: uid is empty"]
    else
      match s.getUser userConns.uid with
      | none => [.debug "handleNodePong: userHandler not found"]
      | some userHandler =>
        userHandler.conns.flatMap (pongConn fromNodeId userConns)
          ++ [.step userConns.uid s.userActionNodePong fromNodeId]

end Server

/-! ## Auxiliary notions used in the statements -/

/-- Whether the effect is a call of `retryManager.addRetry`. -/
def Effect.isAddRetry : Effect → Bool
  | .addRetry _ => true
  | _ => false

/-- Whether the effect is a call of `conn.write`. -/
def Effect.isConnWrite : Effect → Bool
  | .connWrite _ _ _ => true
  | _ => false

/-- The worker that round-robin order assigns to the `j`-th call of `nextDeliver` from now
(`j = 0` is the next call), as long as the counter does not wrap. -/
def deliverManager.roundRobin (d : deliverManager) (j : Nat) : Nat :=
  ((d.nextDeliverIndex + j) % d.deliverrs.length).toNat

/-- Whether a non-blocking send on the inbox of worker `i` goes through. -/
def deliverManager.hasRoom (d : deliverManager) (i : Nat) : Bool :=
  match d.deliverrs[i]? with
  | some deliver => decide (deliver.reqC.length < deliverr.reqCCap)
  | none => false

/-- The manager after `req` was put into the inbox of worker `i`. -/
def deliverManager.enqueue (d : deliverManager) (i : Nat) (req : deliverReq) : deliverManager :=
  match d.deliverrs[i]? with
  | some deliver =>
    { d with deliverrs := d.deliverrs.set i { deliver with reqC := deliver.reqC ++ [req] } }
  | none => d

/-- Whether the effect is a forward of a request to another node (`nodeManager.deliver`). -/
def Effect.isNodeDeliver : Effect → Bool
  | .nodeDeliver _ _ => true
  | _ => false

/-- Whether the effect is a tag insertion (`tagManager.addOrUpdateReceiverTag`). -/
def Effect.isTagInsert : Effect → Bool
  | .addOrUpdateReceiverTag _ _ => true
  | _ => false

/-- Whether the effect belongs to local delivery: a connection write, a retry registration, a
webhook call or a conversation push. -/
def Effect.isLocalDelivery : Effect → Bool
  | .connWrite _ _ _ => true
  | .addRetry _ => true
  | .notifyOfflineMsg _ _ => true
  | .conversationPush _ _ _ _ => true
  | _ => false

/-- The ticks used up by the partition loop of `handleDeliverReq` on the given partitions. -/
def deliverr.partitionsTicks (s : Server) (req : deliverReq) (users : List nodeUsers) : Nat :=
  (users.map (deliverr.partitionTicks s req)).sum

/-- No event of the list was issued by the loop iteration with ordinal `k`. -/
def deliverr.NoTick (k : Nat) (l : List Event) : Prop :=
  ∀ e ∈ l, ∀ σ : Site, e.site = some σ → σ.tick ≠ k

/-- Whether the effect is a webhook call (`webhook.notifyOfflineMsg`). -/
def Effect.isNotifyOfflineMsg : Effect → Bool
  | .notifyOfflineMsg _ _ => true
  | _ => false

/-- The self-suppression test of the loop body of `deliver`. -/
def deliverr.isSelfSent (conn : ConnContext) (message : ReactorChannelMessage) : Bool :=
  decide (conn.uid = message.fromUid ∧ conn.deviceId = message.fromDeviceId)

/-- The connection written to and the message of the loop iteration, for an event that is a
connection write. -/
def Event.writeTarget (e : Event) : Option (ConnContext × ReactorChannelMessage) :=
  match e.eff, e.site with
  | .connWrite conn _ _, some σ => some (conn, σ.message)
  | _, _ => none

/-- The connections of a uid according to the user directory (none for an unknown user). -/
def deliverr.connsOf (s : Server) (uid : String) : List ConnContext :=
  match s.getUser uid with
  | some userHandler => userHandler.conns
  | none => []

/-- The iterations of the nested loop of `deliver`, in program order: the ordinal of the
iteration (starting at `tick`), the connection and the message. -/
def deliverr.iterations (s : Server) (tick : Nat) (req : deliverReq) (uids : List String) :
    List (Nat × ConnContext × ReactorChannelMessage) :=
  ((deliverr.recipients s uids).allConns.flatMap fun conn =>
    req.messages.map fun message => (conn, message)).enumFrom tick

/-- Whether the effect belongs to the handling of a failed `conn.write` in `deliver`: the error
log of the failure or the close of the connection. -/
def Effect.isWriteFailure : Effect → Bool
  | .error msg => msg == "write recvPacket failed"
  | .connClose _ => true
  | _ => false

/-! ## A small concrete deployment, used to evaluate the code on explicit inputs -/

namespace Demo

/-- The connection of alice's phone (device `d1`, master level). -/
def aliceApp : ConnContext :=
  { uid := "alice", deviceId := "d1", deviceFlag := 0, deviceLevel := 1, connId := 11,
    protoVersion := 4, realNodeId := 1, proxyConnId := 0, aesKey := "k1", aesIV := "v1" }

/-- The connection of alice's browser (device `d2`). -/
def aliceWeb : ConnContext :=
  { uid := "alice", deviceId := "d2", deviceFlag := 1, deviceLevel := 0, connId := 12,
    protoVersion := 4, realNodeId := 1, proxyConnId := 0, aesKey := "k2", aesIV := "v2" }

/-- A user directory: alice is online with her two devices, carol is known without any
connection, everybody else is unknown. -/
def getUser (uid : String) : Option UserHandler :=
  if uid = "alice" then some { hasMasterDevice := true, conns := [aliceApp, aliceWeb] }
  else if uid = "carol" then some { hasMasterDevice := false, conns := [] }
  else none

/-- A server on node 1 with stand-ins for the cipher, the digest and the frame encoder; writes
succeed and the tag leader of every channel is node 7, which does not answer. -/
def server : Server :=
  { opts := { nodeId := 1, traceOn := false, systemUID := "____", maxRetry := 2 }
    channelTypePerson := 1
    streamFlagIng := 1
    frameTypeRECV := 5
    statusOK := 1
    getUser := getUser
    aesEncryptPkcs7Base64 := fun data key _ => .ok (key ++ data)
    md5 := fun b => String.mk (b.map Char.ofNat)
    verityString := fun p => p.channelID
    encodeFrame := fun p _ => .ok (stringBytes p.channelID ++ p.payload)
    now := fun _ => 1700000000
    writeOk := fun _ _ _ => true
    isClosed := fun _ _ => false
    leaderOfChannelForRead := fun _ _ => .ok 7
    makeReceiverTag := fun _ => .error "no channel"
    requestWithContext := fun _ _ _ => .error "context deadline exceeded"
    marshalTagReq := fun r => stringBytes r.tagKey
    unmarshalTagResp := fun _ => .error "unexpected end of input" }

/-- A send packet with payload `hi`. -/
def sendPacket (channelID : String) (channelType : Nat) (noPersist : Bool) : SendPacket :=
  { framer := { redDot := true, syncOnce := false, noPersist := noPersist }
    setting := 0, clientSeq := 1, clientMsgNo := "c1", streamNo := "", channelID := channelID
    channelType := channelType, expire := 0, topic := "", payload := [104, 105] }

/-- A message of the given sender to the given channel. -/
def message (messageId : Int) (fromUid fromDeviceId channelID : String) (channelType : Nat)
    (noPersist : Bool) : ReactorChannelMessage :=
  { fromConnId := 1, fromUid := fromUid, fromDeviceId := fromDeviceId, fromNodeId := 1
    messageId := messageId, messageSeq := 1
    sendPacket := sendPacket channelID channelType noPersist }

/-- A request for the group channel `g1` carrying the given messages. -/
def request (messages : List ReactorChannelMessage) : deliverReq :=
  { ch := 0, channelId := "g1", channelType := 2, channelKey := "2-g1", tagKey := "tag1"
    messages := messages }

/-- A group message sent by alice from her phone. -/
def fromAlicePhone : ReactorChannelMessage := message 7 "alice" "d1" "g1" 2 false

/-- A group message sent by bob. -/
def fromBob : ReactorChannelMessage := message 42 "bob" "d9" "g1" 2 false

/-- A group message sent by bob that is not stored. -/
def fromBobVolatile : ReactorChannelMessage := message 43 "bob" "d9" "g1" 2 true

/-- A message alice sends from her phone to her own person channel. -/
def noteToSelf : ReactorChannelMessage := message 9 "alice" "d1" "alice" 1 false

/-- An empty worker inbox. -/
def idle : deliverr := { reqC := [] }

/-- A worker inbox filled to its capacity. -/
def busy : deliverr := { reqC := List.replicate 1024 (request []) }

/-- Three idle workers and a dispatch counter at the largest value of a Go `int`. -/
def lateManager : deliverManager :=
  { deliverrs := [idle, idle, idle], nextDeliverIndex := 9223372036854775807 }

/-- A tag cache holding the tag `tag1`: alice and bob on node 1, dave on node 2. -/
def cache : tagManager :=
  { tags := [{ key := "tag1"
               users := [{ uids := ["alice", "bob"], nodeId := 1 },
                         { uids := ["dave"], nodeId := 2 }] }] }

/-- A user directory in which alice is online with her phone only and bob is known without any
connection (so without a master device online). -/
def getUserBobIdle (uid : String) : Option UserHandler :=
  if uid = "alice" then some { hasMasterDevice := true, conns := [aliceApp] }
  else if uid = "bob" then some { hasMasterDevice := false, conns := [] }
  else none

/-- The server of `server` with the user directory `getUserBobIdle`. -/
def serverBobIdle : Server := { server with getUser := getUserBobIdle }

/-- A stored group message sent by carol. -/
def fromCarol : ReactorChannelMessage := message 42 "carol" "d1" "g1" 2 false

/-- The server of `server` when the remote leader answers the tag request with the tag key
`tag2` and the uid alice. -/
def serverRemoteTag : Server :=
  { server with
    requestWithContext := fun _ _ _ => .ok { status := 1, body := [] }
    unmarshalTagResp := fun _ => .ok { tagKey := "tag2", uids := ["alice"] } }

/-- The demo server as a cluster node: it leads the channel `g1` only, knows the connection 11
of alice only, and decodes every request body into a fixed request whose variable part is taken
from the first byte of the body. -/
def clusterServer : ClusterServer :=
  { toServer := server
    errCodeNotIsChannelLeader := 1002
    errCodeConnNotFound := 1001
    errConnNotFound := "conn not found"
    errChannelIdIsEmpty := "channelId is empty"
    userActionNodePong := 12
    isLeaderOfChannel := fun channelId _ => .ok (channelId == "g1")
    loadOrCreateChannel := fun _ _ => 0
    unmarshalTagReq := fun b =>
      match b with
      | [] => .error "unexpected end of input"
      | 0 :: _ => .ok { channelId := "", channelType := 2, tagKey := "tag1", nodeId := 2 }
      | 9 :: _ => .ok { channelId := "g9", channelType := 2, tagKey := "tag1", nodeId := 2 }
      | n :: _ => .ok { channelId := "g1", channelType := 2, tagKey := "tag1", nodeId := n }
    marshalTagResp := fun r => stringBytes r.tagKey ++ r.uids.flatMap stringBytes
    unmarshalForwardSendackPacketSet := fun b =>
      match b with
      | [] => .ok []
      | n :: rest => .ok [{ uid := "alice", deviceId := "d1", connId := n, sendack := rest }]
    unmarshalFowardWriteReq := fun b =>
      match b with
      | [] => .error "unexpected end of input"
      | n :: rest => .ok { uid := "alice", connId := n, recvFrameCount := 1, data := rest }
    unmarshalUserConns := fun b => .ok { uid := "alice", connIds := b.map Int.ofNat }
    getConnContextById := fun uid connId =>
      if uid = "alice" ∧ connId = 11 then some aliceApp else none
    netConnIsNil := fun _ => false
    writePacketResult := fun _ _ _ _ => .ok () }

/-- The server of `server` when the write of the loop iteration 0 fails on an open connection,
and every later write succeeds. -/
def serverWriteFails : Server :=
  { server with writeOk := fun k _ _ => decide (k ≠ 0) }

/-- The server of `server` when the frame encoder rejects every packet of protocol version 4
in the channel `g1` whose message id is 7. -/
def serverEncodeFails : Server :=
  { server with
    encodeFrame := fun p v =>
      if p.messageID = 7 then .error "unsupported" else server.encodeFrame p v }

/-- The server of `server` with a cipher that, like AES, rejects a key of the wrong size (here:
the empty key). -/
def serverStrictCipher : Server :=
  { server with
    aesEncryptPkcs7Base64 := fun data key _ =>
      if key.length = 0 then .error "crypto/aes: invalid key size 0" else .ok (key ++ data) }

/-- A connection of alice proxied from node 2, where it has the connection id 70. -/
def aliceProxy : ConnContext :=
  { uid := "alice", deviceId := "d3", deviceFlag := 0, deviceLevel := 0, connId := 13,
    protoVersion := 4, realNodeId := 2, proxyConnId := 70, aesKey := "k3", aesIV := "v3" }

/-- A second connection of alice proxied from node 2, where it has the connection id 71. -/
def aliceProxyOld : ConnContext :=
  { uid := "alice", deviceId := "d4", deviceFlag := 0, deviceLevel := 0, connId := 70,
    protoVersion := 4, realNodeId := 2, proxyConnId := 71, aesKey := "k4", aesIV := "v4" }

/-- The cluster node `clusterServer` when alice has her phone (a connection of node 1) and the
two connections proxied from node 2. -/
def clusterServerProxy : ClusterServer :=
  { clusterServer with
    getUser := fun uid =>
      if uid = "alice" then
        some { hasMasterDevice := true, conns := [aliceApp, aliceProxy, aliceProxyOld] }
      else none }

end Demo

/-! ## Structure of the trace of the local deliver step -/

namespace deliverr

theorem noTick_nil (k : Nat) : NoTick k [] := by
  intro e he
  cases he

theorem noTick_append {k : Nat} {l₁ l₂ : List Event} (h₁ : NoTick k l₁) (h₂ : NoTick k l₂) :
    NoTick k (l₁ ++ l₂) := by
  intro e he σ hσ
  rcases List.mem_append.mp he with h | h
  · exact h₁ e h σ hσ
  · exact h₂ e h σ hσ

theorem noTick_of_site_none {k : Nat} {l : List Event} (h : ∀ e ∈ l, e.site = none) :
    NoTick k l := by
  intro e he σ hσ
  rw [h e he] at hσ
  cases hσ

theorem site_of_mem_deliverPair {s : Server} {t : Nat} {c : ConnContext}
    {m : ReactorChannelMessage} {e : Event} (he : e ∈ deliverPair s t c m) :
    e.site = some ⟨t, c, m⟩ := by
  unfold deliverPair at he
  rcases List.mem_map.mp he with ⟨eff, _, rfl⟩
  rfl

theorem site_of_mem_deliverMessages {s : Server} {c : ConnContext} {e : Event} :
    ∀ (ms : List ReactorChannelMessage) (t : Nat), e ∈ deliverMessages s c t ms →
      ∃ σ : Site, e.site = some σ ∧ t ≤ σ.tick ∧ σ.tick < t + ms.length ∧ σ.conn = c ∧
        σ.message ∈ ms
  | [], t, he => by simp [deliverMessages] at he
  | m :: rest, t, he => by
    simp only [deliverMessages, List.mem_append] at he
    rcases he with h | h
    · refine ⟨⟨t, c, m⟩, site_of_mem_deliverPair h, le_refl _, ?_, rfl, ?_⟩
      · simp
      · simp
    · obtain ⟨σ, h1, h2, h3, h4, h5⟩ := site_of_mem_deliverMessages rest (t + 1) h
      refine ⟨σ, h1, by omega, ?_, h4, List.mem_cons_of_mem _ h5⟩
      simp only [List.length_cons]
      omega

theorem site_of_mem_deliverConns {s : Server} {ms : List ReactorChannelMessage} {e : Event} :
    ∀ (cs : List ConnContext) (t : Nat), e ∈ deliverConns s ms t cs →
      ∃ σ : Site, e.site = some σ ∧ t ≤ σ.tick ∧ σ.tick < t + cs.length * ms.length ∧
        σ.conn ∈ cs ∧ σ.message ∈ ms
  | [], t, he => by simp [deliverConns] at he
  | c :: rest, t, he => by
    simp only [deliverConns, List.mem_append] at he
    rcases he with h | h
    · obtain ⟨σ, h1, h2, h3, h4, h5⟩ := site_of_mem_deliverMessages ms t h
      refine ⟨σ, h1, h2, ?_, by simp [h4], h5⟩
      simp only [List.length_cons, Nat.add_mul, Nat.one_mul]
      omega
    · obtain ⟨σ, h1, h2, h3, h4, h5⟩ := site_of_mem_deliverConns rest (t + ms.length) h
      refine ⟨σ, h1, by omega, ?_, List.mem_cons_of_mem _ h4, h5⟩
      simp only [List.length_cons, Nat.add_mul, Nat.one_mul]
      omega

theorem noTick_deliverPair {s : Server} {t k : Nat} {c : ConnContext}
    {m : ReactorChannelMessage} (h : t ≠ k) : NoTick k (deliverPair s t c m) := by
  intro e he σ hσ
  rw [site_of_mem_deliverPair he] at hσ
  cases hσ
  exact h

theorem noTick_deliverMessages {s : Server} {c : ConnContext} {ms : List ReactorChannelMessage}
    {t k : Nat} (h : k < t ∨ t + ms.length ≤ k) : NoTick k (deliverMessages s c t ms) := by
  intro e he σ hσ
  obtain ⟨σ1, h1, h2, h3, _, _⟩ := site_of_mem_deliverMessages ms t he
  rw [h1] at hσ
  cases hσ
  omega

theorem noTick_deliverConns {s : Server} {ms : List ReactorChannelMessage}
    {cs : List ConnContext} {t k : Nat} (h : k < t ∨ t + cs.length * ms.length ≤ k) :
    NoTick k (deliverConns s ms t cs) := by
  intro e he σ hσ
  obtain ⟨σ1, h1, h2, h3, _, _⟩ := site_of_mem_deliverConns cs t he
  rw [h1] at hσ
  cases hσ
  omega

theorem split_deliverMessages {s : Server} {c : ConnContext} {e : Event} {σ : Site} :
    ∀ (ms : List ReactorChannelMessage) (t : Nat), e ∈ deliverMessages s c t ms →
      e.site = some σ →
      ∃ pre post, deliverMessages s c t ms
          = pre ++ deliverPair s σ.tick σ.conn σ.message ++ post ∧
        NoTick σ.tick pre ∧ NoTick σ.tick post
  | [], t, he, _ => by simp [deliverMessages] at he
  | m :: rest, t, he, hσ => by
    simp only [deliverMessages, List.mem_append] at he ⊢
    rcases he with h | h
    · have hs := site_of_mem_deliverPair h
      rw [hσ] at hs
      cases hs
      exact ⟨[], deliverMessages s c (t + 1) rest, by simp, noTick_nil _,
        noTick_deliverMessages (Or.inl (Nat.lt_succ_self _))⟩
    · obtain ⟨σ1, h1, h2, _, _, _⟩ := site_of_mem_deliverMessages rest (t + 1) h
      rw [hσ] at h1
      cases h1
      obtain ⟨pre, post, heq, hpre, hpost⟩ := split_deliverMessages rest (t + 1) h hσ
      refine ⟨deliverPair s t c m ++ pre, post, ?_, ?_, hpost⟩
      · rw [heq]
        simp [List.append_assoc]
      · exact noTick_append (noTick_deliverPair (by omega)) hpre

theorem split_deliverConns {s : Server} {ms : List ReactorChannelMessage} {e : Event}
    {σ : Site} :
    ∀ (cs : List ConnContext) (t : Nat), e ∈ deliverConns s ms t cs → e.site = some σ →
      ∃ pre post, deliverConns s ms t cs
          = pre ++ deliverPair s σ.tick σ.conn σ.message ++ post ∧
        NoTick σ.tick pre ∧ NoTick σ.tick post
  | [], t, he, _ => by simp [deliverConns] at he
  | c :: rest, t, he, hσ => by
    simp only [deliverConns, List.mem_append] at he ⊢
    rcases he with h | h
    · obtain ⟨σ1, h1, h2, h3, _, _⟩ := site_of_mem_deliverMessages ms t h
      rw [hσ] at h1
      cases h1
      obtain ⟨pre, post, heq, hpre, hpost⟩ := split_deliverMessages ms t h hσ
      refine ⟨pre, post ++ deliverConns s ms (t + ms.length) rest, ?_, hpre, ?_⟩
      · rw [heq]
        simp [List.append_assoc]
      · exact noTick_append hpost (noTick_deliverConns (Or.inl h3))
    · obtain ⟨σ1, h1, h2, _, _, _⟩ := site_of_mem_deliverConns rest (t + ms.length) h
      rw [hσ] at h1
      cases h1
      obtain ⟨pre, post, heq, hpre, hpost⟩ :=
        split_deliverConns rest (t + ms.length) h hσ
      refine ⟨deliverMessages s c t ms ++ pre, post, ?_, ?_, hpost⟩
      · rw [heq]
        simp [List.append_assoc]
      · exact noTick_append (noTick_deliverMessages (Or.inr h2)) hpre

theorem site_none_traceDeliver {s : Server} {req : deliverReq} {uids : List String} :
    ∀ e ∈ traceDeliver s req uids, e.site = none := by
  intro e he
  unfold traceDeliver at he
  split at he
  · rcases List.mem_flatMap.mp he with ⟨msg, _, hm⟩
    split at hm
    · dsimp only at hm
      split at hm
      · simp only [List.mem_singleton] at hm
        rw [hm]
      · cases hm
    · cases hm
  · cases he

theorem site_none_notifyOffline {req : deliverReq} {w : List String} :
    ∀ e ∈ notifyOffline req w, e.site = none := by
  intro e he
  unfold notifyOffline at he
  split at he
  · rcases List.mem_map.mp he with ⟨m, _, rfl⟩
    rfl
  · cases he

/-- Every event of `deliver` that carries a site was issued by the loop body run at that site,
for a connection of `allConns` and a message of the request; the events of that run form one
contiguous block of the trace and no other event shares its tick. -/
theorem split_deliver {s : Server} {t : Nat} {req : deliverReq} {uids : List String}
    {e : Event} {σ : Site} (he : e ∈ deliver s t req uids) (hσ : e.site = some σ) :
    ∃ pre post, deliver s t req uids = pre ++ deliverPair s σ.tick σ.conn σ.message ++ post ∧
      NoTick σ.tick pre ∧ NoTick σ.tick post ∧
      σ.conn ∈ (recipients s uids).allConns ∧ σ.message ∈ req.messages := by
  unfold deliver at he ⊢
  split at he
  · cases he
  · rename_i hne
    rw [if_neg hne]
    simp only [List.mem_append] at he
    rcases he with (h | h) | h
    · rw [site_none_traceDeliver e h] at hσ
      cases hσ
    · obtain ⟨pre, post, heq, hpre, hpost⟩ := split_deliverConns _ t h hσ
      obtain ⟨σ1, h1, _, _, h4, h5⟩ := site_of_mem_deliverConns _ t h
      rw [hσ] at h1
      cases h1
      refine ⟨traceDeliver s req uids ++ pre,
        post ++ notifyOffline req (recipients s uids).webhookOfflineUids, ?_, ?_, ?_, h4, h5⟩
      · simp only [heq, List.append_assoc]
      · exact noTick_append (noTick_of_site_none site_none_traceDeliver) hpre
      · exact noTick_append hpost (noTick_of_site_none site_none_notifyOffline)
    · rw [site_none_notifyOffline e h] at hσ
      cases hσ

end deliverr

/-! ## The loop body of the local deliver step -/

namespace deliverr

theorem mem_deliverPair_of_mem_deliver {s : Server} {t : Nat} {req : deliverReq}
    {uids : List String} {e : Event} {σ : Site} (he : e ∈ deliver s t req uids)
    (hσ : e.site = some σ) : e ∈ deliverPair s σ.tick σ.conn σ.message := by
  obtain ⟨pre, post, heq, hpre, hpost, _, _⟩ := split_deliver he hσ
  rw [heq] at he
  simp only [List.mem_append] at he
  rcases he with (h | h) | h
  · exact absurd rfl (hpre e h σ hσ)
  · exact h
  · exact absurd rfl (hpost e h σ hσ)

theorem eff_mem_pairEffects_of_mem_deliver {s : Server} {t : Nat} {req : deliverReq}
    {uids : List String} {σ : Site} {eff : Effect}
    (he : (⟨some σ, eff⟩ : Event) ∈ deliver s t req uids) :
    eff ∈ pairEffects s σ.tick σ.conn σ.message := by
  have h := mem_deliverPair_of_mem_deliver he rfl
  unfold deliverPair at h
  rcases List.mem_map.mp h with ⟨eff1, h1, h2⟩
  cases h2
  exact h1

theorem sealedRecvPacket_error {s : Server} {t : Nat} {c : ConnContext}
    {m : ReactorChannelMessage} {logs : List Effect}
    (h : sealedRecvPacket s t c m = .error logs) : ∀ eff ∈ logs, ∃ msg, eff = .error msg := by
  unfold sealedRecvPacket at h
  dsimp only at h
  split at h
  · cases h
    intro eff he
    simp only [List.mem_singleton] at he
    exact ⟨_, he⟩
  · split at h
    · rename_i log _ hk
      cases h
      unfold makeMsgKey at hk
      split at hk
      · cases hk
        intro eff he
        simp only [List.mem_cons, List.mem_singleton, List.not_mem_nil, or_false] at he
        rcases he with he | he
        · exact ⟨_, he⟩
        · exact ⟨_, he⟩
      · cases hk
    · cases h

/-- The sealed packet differs from `newRecvPacket` in the payload and the message key only. -/
theorem sealedRecvPacket_ok {s : Server} {t : Nat} {c : ConnContext}
    {m : ReactorChannelMessage} {pkt : RecvPacket} (h : sealedRecvPacket s t c m = .ok pkt) :
    ∃ payloadEnc msgKey,
      pkt = { newRecvPacket s t c m with payload := payloadEnc, msgKey := msgKey } := by
  unfold sealedRecvPacket at h
  dsimp only at h
  split at h
  · cases h
  · split at h
    · cases h
    · cases h
      exact ⟨_, _, rfl⟩

theorem newRecvPacket_noPersist (s : Server) (t : Nat) (c : ConnContext)
    (m : ReactorChannelMessage) :
    (newRecvPacket s t c m).framer.noPersist = m.sendPacket.framer.noPersist := by
  simp only [newRecvPacket]
  split_ifs <;> rfl

theorem newRecvPacket_channelType (s : Server) (t : Nat) (c : ConnContext)
    (m : ReactorChannelMessage) :
    (newRecvPacket s t c m).channelType = m.sendPacket.channelType := by
  simp only [newRecvPacket]
  split_ifs <;> rfl

theorem newRecvPacket_fromUID (s : Server) (t : Nat) (c : ConnContext)
    (m : ReactorChannelMessage) :
    (newRecvPacket s t c m).fromUID =
      if m.sendPacket.channelType = s.channelTypePerson ∧ m.fromUid = s.opts.systemUID then ""
      else m.fromUid := by
  simp only [newRecvPacket]
  split_ifs <;> rfl

theorem newRecvPacket_channelID (s : Server) (t : Nat) (c : ConnContext)
    (m : ReactorChannelMessage) :
    (newRecvPacket s t c m).channelID =
      if m.sendPacket.channelType = s.channelTypePerson ∧ m.sendPacket.channelID = c.uid then
        (newRecvPacket s t c m).fromUID
      else m.sendPacket.channelID := by
  simp only [newRecvPacket]
  split_ifs <;> rfl

theorem newRecvPacket_redDot (s : Server) (t : Nat) (c : ConnContext)
    (m : ReactorChannelMessage) :
    (newRecvPacket s t c m).framer.redDot =
      if c.uid = (newRecvPacket s t c m).fromUID then false else m.sendPacket.framer.redDot := by
  simp only [newRecvPacket]
  split_ifs <;> rfl

/-- A write recorded for a loop iteration comes from `emit`: the pair is not self-sent, its
packet was sealed and encoded, and the written bytes are the encoding. -/
theorem pairEffects_of_connWrite {s : Server} {t : Nat} {c c1 : ConnContext}
    {m : ReactorChannelMessage} {data : Bytes} {ft : Nat}
    (h : Effect.connWrite c1 data ft ∈ pairEffects s t c m) :
    ∃ pkt, ¬ (c.uid = m.fromUid ∧ c.deviceId = m.fromDeviceId) ∧
      sealedRecvPacket s t c m = .ok pkt ∧ s.encodeFrame pkt c.protoVersion = .ok data ∧
      c1 = c ∧ ft = s.frameTypeRECV ∧
      pairEffects s t c m = Effect.debug "deliver message to user" :: emit s t c m pkt data := by
  unfold pairEffects at h ⊢
  split at h
  · cases h
  · rename_i hself
    rw [if_neg hself]
    simp only [List.singleton_append, List.mem_cons] at h
    rcases h with h | h
    · cases h
    · split at h
      · rename_i logs hlogs
        obtain ⟨msg, hmsg⟩ := sealedRecvPacket_error hlogs _ h
        cases hmsg
      · rename_i pkt hpkt
        split at h
        · simp at h
        · rename_i data1 hdata
          have hw : c1 = c ∧ data = data1 ∧ ft = s.frameTypeRECV := by
            unfold emit at h
            by_cases h1 : pkt.framer.noPersist <;> by_cases h2 : s.writeOk t c data1 <;>
              by_cases h3 : s.isClosed t c <;> simp [h1, h2, h3] at h <;> exact h
          obtain ⟨h1, h2, h3⟩ := hw
          subst h1 h2 h3
          refine ⟨pkt, hself, hpkt, hdata, rfl, rfl, ?_⟩
          simp [hpkt, hdata]

/-- When the packet is not stored, the loop body registers no retry entry. -/
theorem pairEffects_noPersist {s : Server} {t : Nat} {c : ConnContext}
    {m : ReactorChannelMessage} (hnp : m.sendPacket.framer.noPersist = true) :
    ∀ eff ∈ pairEffects s t c m, eff.isAddRetry = false := by
  intro eff h
  unfold pairEffects at h
  split at h
  · cases h
  · simp only [List.singleton_append, List.mem_cons] at h
    rcases h with h | h
    · rw [h]
      rfl
    · split at h
      · rename_i logs hlogs
        obtain ⟨msg, hmsg⟩ := sealedRecvPacket_error hlogs _ h
        rw [hmsg]
        rfl
      · rename_i pkt hpkt
        obtain ⟨pe, mk, hp⟩ := sealedRecvPacket_ok hpkt
        have hnp1 : pkt.framer.noPersist = true := by
          rw [hp]
          simpa [newRecvPacket_noPersist] using hnp
        split at h
        · simp only [List.mem_singleton] at h
          rw [h]
          rfl
        · rename_i data hdata
          unfold emit at h
          by_cases h2 : s.writeOk t c data <;> by_cases h3 : s.isClosed t c <;>
            simp [hnp1, h2, h3] at h <;>
            first
              | rfl
              | (subst h; rfl)
              | (rcases h with h | h <;> subst h <;> rfl)
              | (rcases h with h | h | h <;> subst h <;> rfl)

end deliverr

/-! ## Claims about the local deliver step -/

namespace deliverr

theorem filter_site_of_noTick {σ : Site} {l : List Event} (p : Event → Bool)
    (h : NoTick σ.tick l) :
    l.filter (fun e => decide (e.site = some σ) && p e) = [] := by
  rw [List.filter_eq_nil_iff]
  intro e he
  have := h e he σ
  by_cases hs : e.site = some σ
  · exact absurd rfl (this hs)
  · simp [hs]

/-- C1: self-suppression.  If `conn.uid == message.FromUid` and
`conn.deviceId == message.FromDeviceId`, then no event of the local deliver step issued for the
pair `(conn, message)` (at whatever position `k` of the nested loop) is a retry registration or a
connection write. -/
theorem deliver_skips_sender_device (s : Server) (tick : Nat) (req : deliverReq)
    (uids : List String) (conn : ConnContext) (message : ReactorChannelMessage)
    (huid : conn.uid = message.fromUid) (hdev : conn.deviceId = message.fromDeviceId) :
    ∀ e ∈ deliver s tick req uids, ∀ k, e.site = some ⟨k, conn, message⟩ →
      e.eff.isAddRetry = false ∧ e.eff.isConnWrite = false := by
  intro e he k hk
  have h := mem_deliverPair_of_mem_deliver he hk
  simp [deliverPair, pairEffects, huid, hdev] at h

/-- Evaluation of C1: alice's phone `d1` sent message 7; in a request carrying that message and
one of bob, delivered to alice, nothing is registered or written for (alice's phone, message 7),
while bob's message is written to that same connection. -/
theorem deliver_skips_sender_device_witness :
    (Demo.aliceApp.uid = Demo.fromAlicePhone.fromUid ∧
      Demo.aliceApp.deviceId = Demo.fromAlicePhone.fromDeviceId) ∧
    (∀ e ∈ deliver Demo.server 0 (Demo.request [Demo.fromAlicePhone, Demo.fromBob]) ["alice"],
      ∀ k, e.site = some ⟨k, Demo.aliceApp, Demo.fromAlicePhone⟩ →
        e.eff.isAddRetry = false ∧ e.eff.isConnWrite = false) ∧
    (⟨some ⟨1, Demo.aliceApp, Demo.fromBob⟩,
        .connWrite Demo.aliceApp [103, 49, 107, 49, 104, 105] 5⟩ : Event) ∈
      deliver Demo.server 0 (Demo.request [Demo.fromAlicePhone, Demo.fromBob]) ["alice"] :=
  ⟨⟨by decide, by decide⟩,
    deliver_skips_sender_device Demo.server 0 _ ["alice"] Demo.aliceApp Demo.fromAlicePhone
      (by decide) (by decide),
    by decide⟩

/-- The events of a loop iteration that writes, when the packet is stored: the debug log, the
retry registration, the write, and a tail that holds neither a registration nor a write. -/
theorem deliverPair_of_connWrite {s : Server} {k : Nat} {c : ConnContext}
    {m : ReactorChannelMessage} {data : Bytes} {ft : Nat}
    (hnp : m.sendPacket.framer.noPersist = false)
    (h : Effect.connWrite c data ft ∈ pairEffects s k c m) :
    ∃ tail : List Event,
      deliverPair s k c m =
        ⟨some ⟨k, c, m⟩, .debug "deliver message to user"⟩ ::
        ⟨some ⟨k, c, m⟩, .addRetry
          { uid := c.uid, connId := c.connId, messageId := m.messageId,
            recvPacketData := data }⟩ ::
        ⟨some ⟨k, c, m⟩, .connWrite c data ft⟩ :: tail ∧
      ∀ e ∈ tail, e.eff.isAddRetry = false ∧ e.eff.isConnWrite = false := by
  obtain ⟨pkt, _, hpkt, _, _, hft, heq⟩ := pairEffects_of_connWrite h
  obtain ⟨pe, mk, hp⟩ := sealedRecvPacket_ok hpkt
  have hnp1 : pkt.framer.noPersist = false := by
    rw [hp]
    simpa [newRecvPacket_noPersist] using hnp
  subst hft
  unfold deliverPair
  rw [heq]
  unfold emit
  by_cases h2 : s.writeOk k c data <;> by_cases h3 : s.isClosed k c <;>
    simp [hnp1, h2, h3, Effect.isAddRetry, Effect.isConnWrite]

/-- C2: retry enrollment.  For the loop iteration at position `k` on the pair `(conn, message)`:
if the packet is stored (`NoPersist == false`) and `conn.write` is called with bytes `data`, then
among the events of that iteration there is exactly one retry registration, it is
`{uid = conn.uid, connId = conn.connId, messageId = message.MessageId, recvPacketData = data}`,
the write is the only write of the iteration, and in the trace the registration stands right
before the write; if `NoPersist == true` the iteration registers no retry entry. -/
theorem deliver_retry_enrollment (s : Server) (tick : Nat) (req : deliverReq)
    (uids : List String) (k : Nat) (conn : ConnContext) (message : ReactorChannelMessage) :
    (message.sendPacket.framer.noPersist = false →
      ∀ data ft,
        (⟨some ⟨k, conn, message⟩, .connWrite conn data ft⟩ : Event) ∈ deliver s tick req uids →
        (deliver s tick req uids).filter
            (fun e => decide (e.site = some ⟨k, conn, message⟩) && e.eff.isAddRetry) =
          [⟨some ⟨k, conn, message⟩, .addRetry
            { uid := conn.uid, connId := conn.connId, messageId := message.messageId,
              recvPacketData := data }⟩] ∧
        (deliver s tick req uids).filter
            (fun e => decide (e.site = some ⟨k, conn, message⟩) && e.eff.isConnWrite) =
          [⟨some ⟨k, conn, message⟩, .connWrite conn data ft⟩] ∧
        ∃ pre post, deliver s tick req uids =
          pre ++
            ⟨some ⟨k, conn, message⟩, .addRetry
              { uid := conn.uid, connId := conn.connId, messageId := message.messageId,
                recvPacketData := data }⟩ ::
            ⟨some ⟨k, conn, message⟩, .connWrite conn data ft⟩ :: post) ∧
    (message.sendPacket.framer.noPersist = true →
      (deliver s tick req uids).filter
          (fun e => decide (e.site = some ⟨k, conn, message⟩) && e.eff.isAddRetry) = []) := by
  constructor
  · intro hnp data ft hw
    obtain ⟨pre, post, heq, hpre, hpost, _, _⟩ := split_deliver hw rfl
    have hmem := eff_mem_pairEffects_of_mem_deliver hw
    obtain ⟨tl, hpair, htl⟩ := deliverPair_of_connWrite hnp hmem
    dsimp only at heq hpre hpost hpair hmem
    have htl1 : tl.filter
        (fun e => decide (e.site = some ⟨k, conn, message⟩) && e.eff.isAddRetry) = [] := by
      rw [List.filter_eq_nil_iff]
      intro e he
      simp [(htl e he).1]
    have htl2 : tl.filter
        (fun e => decide (e.site = some ⟨k, conn, message⟩) && e.eff.isConnWrite) = [] := by
      rw [List.filter_eq_nil_iff]
      intro e he
      simp [(htl e he).2]
    refine ⟨?_, ?_, ?_⟩
    · rw [heq, List.filter_append, List.filter_append,
        filter_site_of_noTick (σ := ⟨k, conn, message⟩) _ hpre,
        filter_site_of_noTick (σ := ⟨k, conn, message⟩) _ hpost, hpair]
      simp [List.filter_cons, Effect.isAddRetry]
      intro a ha _
      exact (htl a ha).1
    · rw [heq, List.filter_append, List.filter_append,
        filter_site_of_noTick (σ := ⟨k, conn, message⟩) _ hpre,
        filter_site_of_noTick (σ := ⟨k, conn, message⟩) _ hpost, hpair]
      simp [List.filter_cons, Effect.isConnWrite]
      intro a ha _
      exact (htl a ha).2
    · refine ⟨pre ++ [⟨some ⟨k, conn, message⟩, .debug "deliver message to user"⟩],
        tl ++ post, ?_⟩
      rw [heq, hpair]
      simp [List.append_assoc]
  · intro hnp
    rw [List.filter_eq_nil_iff]
    intro e he
    by_cases hs : e.site = some ⟨k, conn, message⟩
    · have h := mem_deliverPair_of_mem_deliver he hs
      unfold deliverPair at h
      rcases List.mem_map.mp h with ⟨eff, h1, h2⟩
      have := pairEffects_noPersist hnp eff h1
      rw [← h2]
      simp [this]
    · simp [hs]

/-- Evaluation of C2: bob's stored message 42 and his volatile message 43 delivered to alice's
phone. -/
theorem deliver_retry_enrollment_witness :
    (Demo.fromBob.sendPacket.framer.noPersist = false ∧
      (⟨some ⟨0, Demo.aliceApp, Demo.fromBob⟩,
          .connWrite Demo.aliceApp [103, 49, 107, 49, 104, 105] 5⟩ : Event) ∈
        deliver Demo.server 0 (Demo.request [Demo.fromBob, Demo.fromBobVolatile]) ["alice"] ∧
      (deliver Demo.server 0 (Demo.request [Demo.fromBob, Demo.fromBobVolatile])
          ["alice"]).filter
          (fun e => decide (e.site = some ⟨0, Demo.aliceApp, Demo.fromBob⟩) &&
            e.eff.isAddRetry) =
        [⟨some ⟨0, Demo.aliceApp, Demo.fromBob⟩, .addRetry
          { uid := "alice", connId := 11, messageId := 42,
            recvPacketData := [103, 49, 107, 49, 104, 105] }⟩]) ∧
    (Demo.fromBobVolatile.sendPacket.framer.noPersist = true ∧
      (deliver Demo.server 0 (Demo.request [Demo.fromBob, Demo.fromBobVolatile])
          ["alice"]).filter
          (fun e => decide (e.site = some ⟨1, Demo.aliceApp, Demo.fromBobVolatile⟩) &&
            e.eff.isAddRetry) = []) :=
  ⟨⟨by decide, by decide,
    ((deliver_retry_enrollment Demo.server 0
      (Demo.request [Demo.fromBob, Demo.fromBobVolatile]) ["alice"] 0 Demo.aliceApp
      Demo.fromBob).1 (by decide) [103, 49, 107, 49, 104, 105] 5 (by decide)).1⟩,
   ⟨by decide,
    (deliver_retry_enrollment Demo.server 0
      (Demo.request [Demo.fromBob, Demo.fromBobVolatile]) ["alice"] 1 Demo.aliceApp
      Demo.fromBobVolatile).2 (by decide)⟩⟩

end deliverr

namespace deliverr

theorem mem_classify_webhookOfflineUids (s : Server) (uid : String) :
    ∀ (uids : List String) (acc : Recipients),
      uid ∈ (classify s uids acc).webhookOfflineUids ↔
        uid ∈ acc.webhookOfflineUids ∨
          (uid ∈ uids ∧
            (s.getUser uid = none ∨
              ∃ u, s.getUser uid = some u ∧ (u.conns.length = 0 ∨ u.hasMasterDevice = false)))
  | [], acc => by simp [classify]
  | toUid :: rest, acc => by
    unfold classify
    split
    · rename_i hu
      rw [mem_classify_webhookOfflineUids s uid rest]
      by_cases h : uid = toUid
      · subst h
        simp [hu]
      · simp [h]
    · rename_i u hu
      dsimp only
      split
      · rename_i hc
        rw [mem_classify_webhookOfflineUids s uid rest]
        by_cases h : uid = toUid
        · subst h
          have hc1 : u.conns = [] := List.length_eq_zero.mp hc
          simp [hu, hc1]
        · by_cases hm : u.hasMasterDevice <;> simp [h, hm]
      · rename_i hc
        rw [mem_classify_webhookOfflineUids s uid rest]
        by_cases h : uid = toUid
        · subst h
          have hc1 : u.conns ≠ [] := fun h0 => hc (List.length_eq_zero.mpr h0)
          by_cases hm : u.hasMasterDevice <;> simp [hu, hc1, hm]
        · by_cases hm : u.hasMasterDevice <;> simp [h, hm]

/-- The kinds of effect the loop body can have. -/
theorem pairEffects_kinds {s : Server} {t : Nat} {c : ConnContext}
    {m : ReactorChannelMessage} :
    ∀ eff ∈ pairEffects s t c m,
      (∃ msg, eff = .debug msg) ∨ (∃ msg, eff = .error msg) ∨ (∃ r, eff = .addRetry r) ∨
        (∃ data ft, eff = .connWrite c data ft) ∨ eff = .connClose c := by
  intro eff h
  unfold pairEffects at h
  split at h
  · cases h
  · simp only [List.singleton_append, List.mem_cons] at h
    rcases h with h | h
    · exact Or.inl ⟨_, h⟩
    · split at h
      · rename_i logs hlogs
        exact Or.inr (Or.inl (sealedRecvPacket_error hlogs _ h))
      · split at h
        · simp only [List.mem_singleton] at h
          exact Or.inr (Or.inl ⟨_, h⟩)
        · rename_i data hdata
          unfold emit at h
          simp only [List.mem_append, List.mem_singleton] at h
          rcases h with (h | h) | h
          · split at h
            · simp only [List.mem_singleton] at h
              exact Or.inr (Or.inr (Or.inl ⟨_, h⟩))
            · cases h
          · exact Or.inr (Or.inr (Or.inr (Or.inl ⟨_, _, h⟩)))
          · split at h
            · cases h
            · simp only [List.mem_append, List.mem_singleton] at h
              rcases h with h | h
              · exact Or.inr (Or.inl ⟨_, h⟩)
              · split at h
                · simp only [List.mem_singleton] at h
                  exact Or.inr (Or.inr (Or.inr (Or.inr h)))
                · cases h

theorem kinds_of_mem_deliverConns {s : Server} {ms : List ReactorChannelMessage}
    {cs : List ConnContext} {t : Nat} {e : Event} (he : e ∈ deliverConns s ms t cs) :
    (∃ msg, e.eff = .debug msg) ∨ (∃ msg, e.eff = .error msg) ∨ (∃ r, e.eff = .addRetry r) ∨
      (∃ c data ft, e.eff = .connWrite c data ft) ∨ ∃ c, e.eff = .connClose c := by
  obtain ⟨σ, hσ, _, _, _, _⟩ := site_of_mem_deliverConns cs t he
  obtain ⟨pre, post, heq, hpre, hpost⟩ := split_deliverConns cs t he hσ
  rw [heq] at he
  simp only [List.mem_append] at he
  rcases he with (h | h) | h
  · exact absurd rfl (hpre e h σ hσ)
  · unfold deliverPair at h
    rcases List.mem_map.mp h with ⟨eff, h1, h2⟩
    subst h2
    rcases pairEffects_kinds eff h1 with h | h | h | h | h
    · exact Or.inl h
    · exact Or.inr (Or.inl h)
    · exact Or.inr (Or.inr (Or.inl h))
    · obtain ⟨d, ft, h⟩ := h
      exact Or.inr (Or.inr (Or.inr (Or.inl ⟨_, d, ft, h⟩)))
    · exact Or.inr (Or.inr (Or.inr (Or.inr ⟨_, h⟩)))
  · exact absurd rfl (hpost e h σ hσ)

/-- C3: the offline list.  A uid is in the `webhookOfflineUids` list built by the recipient loop
of `deliver` if and only if it is an input uid that is unknown to the user directory, or has zero
connections, or has no master device online; and every webhook call of `deliver` is passed that
list. -/
theorem webhookOfflineUids_iff (s : Server) (tick : Nat) (req : deliverReq)
    (uids : List String) (uid : String) :
    (uid ∈ (recipients s uids).webhookOfflineUids ↔
      uid ∈ uids ∧
        (s.getUser uid = none ∨
          ∃ u, s.getUser uid = some u ∧ (u.conns.length = 0 ∨ u.hasMasterDevice = false))) ∧
    (∀ e ∈ deliver s tick req uids, ∀ m w, e.eff = .notifyOfflineMsg m w →
      w = (recipients s uids).webhookOfflineUids) := by
  constructor
  · unfold recipients
    rw [mem_classify_webhookOfflineUids]
    simp
  · intro e he m w hw
    unfold deliver at he
    split at he
    · cases he
    · simp only [List.mem_append] at he
      rcases he with (h | h) | h
      · unfold traceDeliver at h
        split at h
        · rcases List.mem_flatMap.mp h with ⟨msg, _, hm⟩
          split at hm
          · dsimp only at hm
            split at hm
            · simp only [List.mem_singleton] at hm
              rw [hm] at hw
              cases hw
            · cases hm
          · cases hm
        · cases h
      · rcases kinds_of_mem_deliverConns h with h1 | h1 | h1 | h1 | h1
        · obtain ⟨x, h1⟩ := h1
          rw [h1] at hw
          cases hw
        · obtain ⟨x, h1⟩ := h1
          rw [h1] at hw
          cases hw
        · obtain ⟨x, h1⟩ := h1
          rw [h1] at hw
          cases hw
        · obtain ⟨x, y, z, h1⟩ := h1
          rw [h1] at hw
          cases hw
        · obtain ⟨x, h1⟩ := h1
          rw [h1] at hw
          cases hw
      · unfold notifyOffline at h
        split at h
        · rcases List.mem_map.mp h with ⟨m1, _, h2⟩
          rw [← h2] at hw
          cases hw
          rfl
        · cases h

/-- Evaluation of C3: of alice (online with a master device), bob (unknown) and carol (known,
no connection, no master device), the offline list holds bob and carol and not alice. -/
theorem webhookOfflineUids_iff_witness :
    (recipients Demo.server ["alice", "bob", "carol"]).webhookOfflineUids
        = ["bob", "carol", "carol"] ∧
    ("alice" ∈ (recipients Demo.server ["alice", "bob", "carol"]).webhookOfflineUids ↔
      "alice" ∈ ["alice", "bob", "carol"] ∧
        (Demo.server.getUser "alice" = none ∨
          ∃ u, Demo.server.getUser "alice" = some u ∧
            (u.conns.length = 0 ∨ u.hasMasterDevice = false))) :=
  ⟨by decide,
    (webhookOfflineUids_iff Demo.server 0 (Demo.request [Demo.fromBob])
      ["alice", "bob", "carol"] "alice").1⟩

end deliverr

namespace deliverr

/-- A write recorded by `deliver` at a site is the write of the sealed and encoded packet of that
site. -/
theorem packet_of_connWrite {s : Server} {tick : Nat} {req : deliverReq} {uids : List String}
    {k : Nat} {conn : ConnContext} {message : ReactorChannelMessage} {data : Bytes} {ft : Nat}
    (hw : (⟨some ⟨k, conn, message⟩, .connWrite conn data ft⟩ : Event) ∈
      deliver s tick req uids) :
    ∃ pkt payloadEnc msgKey,
      sealedRecvPacket s k conn message = .ok pkt ∧
      s.encodeFrame pkt conn.protoVersion = .ok data ∧
      pkt = { newRecvPacket s k conn message with payload := payloadEnc, msgKey := msgKey } := by
  have hmem := eff_mem_pairEffects_of_mem_deliver hw
  obtain ⟨pkt, _, hpkt, hdata, _, _, _⟩ := pairEffects_of_connWrite hmem
  obtain ⟨pe, mk, hp⟩ := sealedRecvPacket_ok hpkt
  exact ⟨pkt, pe, mk, hpkt, hdata, hp⟩

/-- C4, as stated, fails: alice sends a message from her phone to her own person channel
(`ChannelID = "alice"`).  The packet written to her browser connection has `ChannelType`
Person and `ChannelID = "alice"`, which is the uid of that connection. -/
theorem person_channelID_counterexample :
    (⟨some ⟨1, Demo.aliceWeb, Demo.noteToSelf⟩,
        .connWrite Demo.aliceWeb [97, 108, 105, 99, 101, 107, 50, 104, 105] 5⟩ : Event) ∈
      deliver Demo.server 0 (Demo.request [Demo.noteToSelf]) ["alice"] ∧
    ∃ pkt, sealedRecvPacket Demo.server 1 Demo.aliceWeb Demo.noteToSelf = .ok pkt ∧
      Demo.server.encodeFrame pkt Demo.aliceWeb.protoVersion
        = .ok [97, 108, 105, 99, 101, 107, 50, 104, 105] ∧
      pkt.channelType = Demo.server.channelTypePerson ∧
      pkt.channelID = Demo.aliceWeb.uid :=
  ⟨by decide, _, rfl, rfl, by decide, by decide⟩

/-- C4, amended: for every write of `deliver` for `(conn, message)` there is the packet that was
sealed and encoded into the written bytes, and if its `ChannelType` is Person then its
`ChannelID` equals `conn.uid` exactly when the send packet's `ChannelID` is `conn.uid` and the
emitted `FromUID` is `conn.uid` too; so the emitted `ChannelID` differs from `conn.uid` whenever
the emitted `FromUID` does. -/
theorem deliver_person_channelID (s : Server) (tick : Nat) (req : deliverReq)
    (uids : List String) (k : Nat) (conn : ConnContext) (message : ReactorChannelMessage)
    (data : Bytes) (ft : Nat)
    (hw : (⟨some ⟨k, conn, message⟩, .connWrite conn data ft⟩ : Event) ∈
      deliver s tick req uids) :
    ∃ pkt, sealedRecvPacket s k conn message = .ok pkt ∧
      s.encodeFrame pkt conn.protoVersion = .ok data ∧
      (pkt.channelType = s.channelTypePerson →
        ((pkt.channelID = conn.uid ↔
            message.sendPacket.channelID = conn.uid ∧ pkt.fromUID = conn.uid) ∧
          (pkt.fromUID ≠ conn.uid → pkt.channelID ≠ conn.uid))) := by
  obtain ⟨pkt, pe, mk, hpkt, hdata, hp⟩ := packet_of_connWrite hw
  refine ⟨pkt, hpkt, hdata, ?_⟩
  intro hty
  have hct : pkt.channelType = message.sendPacket.channelType := by
    rw [hp]
    exact newRecvPacket_channelType s k conn message
  have hid : pkt.channelID = (newRecvPacket s k conn message).channelID := by rw [hp]
  have hfrom : pkt.fromUID = (newRecvPacket s k conn message).fromUID := by rw [hp]
  rw [hct] at hty
  have hiff : pkt.channelID = conn.uid ↔
      message.sendPacket.channelID = conn.uid ∧ pkt.fromUID = conn.uid := by
    rw [hid, hfrom, newRecvPacket_channelID]
    by_cases hc : message.sendPacket.channelID = conn.uid
    · simp [hty, hc]
    · simp [hc]
  exact ⟨hiff, fun hne heq => hne (hiff.mp heq).2⟩

/-- Evaluation of C4 (amended): bob writes to alice in the person channel `alice`; the packet
written to alice's phone is in the channel `bob`. -/
theorem deliver_person_channelID_witness :
    (⟨some ⟨0, Demo.aliceApp, Demo.message 9 "bob" "d9" "alice" 1 false⟩,
        .connWrite Demo.aliceApp [98, 111, 98, 107, 49, 104, 105] 5⟩ : Event) ∈
      deliver Demo.server 0 (Demo.request [Demo.message 9 "bob" "d9" "alice" 1 false])
        ["alice"] ∧
    ∃ pkt, sealedRecvPacket Demo.server 0 Demo.aliceApp
          (Demo.message 9 "bob" "d9" "alice" 1 false) = .ok pkt ∧
      Demo.server.encodeFrame pkt Demo.aliceApp.protoVersion
        = .ok [98, 111, 98, 107, 49, 104, 105] ∧
      (pkt.channelType = Demo.server.channelTypePerson →
        ((pkt.channelID = Demo.aliceApp.uid ↔
            (Demo.message 9 "bob" "d9" "alice" 1 false).sendPacket.channelID
              = Demo.aliceApp.uid ∧ pkt.fromUID = Demo.aliceApp.uid) ∧
          (pkt.fromUID ≠ Demo.aliceApp.uid → pkt.channelID ≠ Demo.aliceApp.uid))) :=
  ⟨by decide,
    deliver_person_channelID Demo.server 0
      (Demo.request [Demo.message 9 "bob" "d9" "alice" 1 false]) ["alice"] 0 Demo.aliceApp
      (Demo.message 9 "bob" "d9" "alice" 1 false) [98, 111, 98, 107, 49, 104, 105] 5
      (by decide)⟩

/-- C5: sender rewrite.  For every write of `deliver` for `(conn, message)` there is the packet
that was sealed and encoded into the written bytes, and its `FromUID` is the empty string when
the message is in a Person channel and sent by the configured system account, and the `FromUid`
of the message otherwise. -/
theorem deliver_fromUID (s : Server) (tick : Nat) (req : deliverReq)
    (uids : List String) (k : Nat) (conn : ConnContext) (message : ReactorChannelMessage)
    (data : Bytes) (ft : Nat)
    (hw : (⟨some ⟨k, conn, message⟩, .connWrite conn data ft⟩ : Event) ∈
      deliver s tick req uids) :
    ∃ pkt, sealedRecvPacket s k conn message = .ok pkt ∧
      s.encodeFrame pkt conn.protoVersion = .ok data ∧
      (message.sendPacket.channelType = s.channelTypePerson ∧
          message.fromUid = s.opts.systemUID → pkt.fromUID = "") ∧
      (¬ (message.sendPacket.channelType = s.channelTypePerson ∧
          message.fromUid = s.opts.systemUID) → pkt.fromUID = message.fromUid) := by
  obtain ⟨pkt, pe, mk, hpkt, hdata, hp⟩ := packet_of_connWrite hw
  have hfrom : pkt.fromUID = (newRecvPacket s k conn message).fromUID := by rw [hp]
  refine ⟨pkt, hpkt, hdata, ?_, ?_⟩
  · intro h
    rw [hfrom, newRecvPacket_fromUID, if_pos h]
  · intro h
    rw [hfrom, newRecvPacket_fromUID, if_neg h]

/-- Evaluation of C5: the system account `____` writes to alice in her person channel (the
sender is blanked, and the channel becomes the blank sender), and bob writes to the group. -/
theorem deliver_fromUID_witness :
    ((⟨some ⟨0, Demo.aliceApp, Demo.message 5 "____" "sys" "alice" 1 false⟩,
        .connWrite Demo.aliceApp [107, 49, 104, 105] 5⟩ : Event) ∈
      deliver Demo.server 0 (Demo.request [Demo.message 5 "____" "sys" "alice" 1 false])
        ["alice"] ∧
    ∃ pkt, sealedRecvPacket Demo.server 0 Demo.aliceApp
          (Demo.message 5 "____" "sys" "alice" 1 false) = .ok pkt ∧ pkt.fromUID = "") ∧
    ((⟨some ⟨0, Demo.aliceApp, Demo.fromBob⟩,
        .connWrite Demo.aliceApp [103, 49, 107, 49, 104, 105] 5⟩ : Event) ∈
      deliver Demo.server 0 (Demo.request [Demo.fromBob]) ["alice"] ∧
    ∃ pkt, sealedRecvPacket Demo.server 0 Demo.aliceApp Demo.fromBob = .ok pkt ∧
      pkt.fromUID = "bob") :=
  ⟨⟨by decide,
    (deliver_fromUID Demo.server 0
      (Demo.request [Demo.message 5 "____" "sys" "alice" 1 false]) ["alice"] 0 Demo.aliceApp
      (Demo.message 5 "____" "sys" "alice" 1 false) [107, 49, 104, 105] 5 (by decide)).imp
      fun _ h => ⟨h.1, h.2.2.1 (by decide)⟩⟩,
   ⟨by decide,
    (deliver_fromUID Demo.server 0 (Demo.request [Demo.fromBob]) ["alice"] 0 Demo.aliceApp
      Demo.fromBob [103, 49, 107, 49, 104, 105] 5 (by decide)).imp
      fun _ h => ⟨h.1, h.2.2.2 (by decide)⟩⟩⟩

/-- C6: red dot.  For every write of `deliver` for `(conn, message)` there is the packet that was
sealed and encoded into the written bytes, and its `RedDot` flag is false when `conn.uid` equals
the packet's `FromUID`, and the `RedDot` flag of the send packet otherwise. -/
theorem deliver_redDot (s : Server) (tick : Nat) (req : deliverReq)
    (uids : List String) (k : Nat) (conn : ConnContext) (message : ReactorChannelMessage)
    (data : Bytes) (ft : Nat)
    (hw : (⟨some ⟨k, conn, message⟩, .connWrite conn data ft⟩ : Event) ∈
      deliver s tick req uids) :
    ∃ pkt, sealedRecvPacket s k conn message = .ok pkt ∧
      s.encodeFrame pkt conn.protoVersion = .ok data ∧
      (conn.uid = pkt.fromUID → pkt.framer.redDot = false) ∧
      (conn.uid ≠ pkt.fromUID → pkt.framer.redDot = message.sendPacket.framer.redDot) := by
  obtain ⟨pkt, pe, mk, hpkt, hdata, hp⟩ := packet_of_connWrite hw
  have hfrom : pkt.fromUID = (newRecvPacket s k conn message).fromUID := by rw [hp]
  have hred : pkt.framer.redDot = (newRecvPacket s k conn message).framer.redDot := by rw [hp]
  refine ⟨pkt, hpkt, hdata, ?_, ?_⟩
  · intro h
    rw [hfrom] at h
    rw [hred, newRecvPacket_redDot, if_pos h]
  · intro h
    rw [hfrom] at h
    rw [hred, newRecvPacket_redDot, if_neg h]

/-- Evaluation of C6: alice's phone sends a group message with the red dot set; the copy
written to her browser has the red dot cleared. -/
theorem deliver_redDot_witness :
    (⟨some ⟨1, Demo.aliceWeb, Demo.fromAlicePhone⟩,
        .connWrite Demo.aliceWeb [103, 49, 107, 50, 104, 105] 5⟩ : Event) ∈
      deliver Demo.server 0 (Demo.request [Demo.fromAlicePhone]) ["alice"] ∧
    (∃ pkt, sealedRecvPacket Demo.server 1 Demo.aliceWeb Demo.fromAlicePhone = .ok pkt ∧
      Demo.server.encodeFrame pkt Demo.aliceWeb.protoVersion
        = .ok [103, 49, 107, 50, 104, 105] ∧
      (Demo.aliceWeb.uid = pkt.fromUID → pkt.framer.redDot = false) ∧
      (Demo.aliceWeb.uid ≠ pkt.fromUID →
        pkt.framer.redDot = Demo.fromAlicePhone.sendPacket.framer.redDot)) ∧
    (∃ pkt, sealedRecvPacket Demo.server 1 Demo.aliceWeb Demo.fromAlicePhone = .ok pkt ∧
      Demo.fromAlicePhone.sendPacket.framer.redDot = true ∧ pkt.framer.redDot = false) :=
  ⟨by decide,
    deliver_redDot Demo.server 0 (Demo.request [Demo.fromAlicePhone]) ["alice"] 1
      Demo.aliceWeb Demo.fromAlicePhone [103, 49, 107, 50, 104, 105] 5 (by decide),
    ⟨_, rfl, by decide, by decide⟩⟩

end deliverr

/-! ## Claims about dispatch -/

namespace deliverManager

theorem goInt_of_lt {x : Int} (h0 : 0 ≤ x) (h : x < 2 ^ 63) : goInt x = x := by
  unfold goInt
  norm_num at h ⊢
  omega

theorem roundRobin_lt (d : deliverManager) (j : Nat) (hN : 1 ≤ d.deliverrs.length) :
    d.roundRobin j < d.deliverrs.length := by
  unfold roundRobin
  have h1 : (0 : Int) < d.deliverrs.length := by omega
  have h2 := Int.emod_nonneg (d.nextDeliverIndex + j) (ne_of_gt h1)
  have h3 := Int.emod_lt_of_pos (d.nextDeliverIndex + j) h1
  omega

/-- One call of `nextDeliver` while the counter is below the largest `int`. -/
theorem nextDeliver_eq (d : deliverManager) (hN : 1 ≤ d.deliverrs.length)
    (h0 : 0 ≤ d.nextDeliverIndex) (hmax : d.nextDeliverIndex + 1 < 2 ^ 63) :
    d.nextDeliver =
      some (d.roundRobin 0, { d with nextDeliverIndex := d.nextDeliverIndex + 1 }) := by
  unfold nextDeliver roundRobin
  have hne : ¬ d.deliverrs.length = 0 := by omega
  have h1 : (0 : Int) < d.deliverrs.length := by omega
  have h2 := Int.emod_nonneg d.nextDeliverIndex (ne_of_gt h1)
  have h3 := Int.emod_lt_of_pos d.nextDeliverIndex h1
  rw [if_neg hne]
  simp only [Int.tmod_eq_emod h0 (le_of_lt h1), goInt_of_lt (by omega : 0 ≤ d.nextDeliverIndex + 1) hmax]
  rw [if_pos ⟨h2, h3⟩]
  simp

theorem roundRobin_succ (d : deliverManager) (j : Nat) :
    ({ d with nextDeliverIndex := d.nextDeliverIndex + 1 } : deliverManager).roundRobin j
      = d.roundRobin (j + 1) := by
  unfold roundRobin
  simp only [Nat.cast_add, Nat.cast_one]
  congr 2
  ring

theorem nextDeliverN_eq :
    ∀ (n : Nat) (d : deliverManager), 1 ≤ d.deliverrs.length → 0 ≤ d.nextDeliverIndex →
      d.nextDeliverIndex + n < 2 ^ 63 →
      nextDeliverN n d =
        some ((List.range n).map d.roundRobin,
          { d with nextDeliverIndex := d.nextDeliverIndex + n })
  | 0, d, _, _, _ => by simp [nextDeliverN]
  | n + 1, d, hN, h0, hmax => by
    have hmax1 : d.nextDeliverIndex + 1 < 2 ^ 63 := by push_cast at hmax; omega
    unfold nextDeliverN
    rw [nextDeliver_eq d hN h0 hmax1]
    dsimp only
    have ih := nextDeliverN_eq n { d with nextDeliverIndex := d.nextDeliverIndex + 1 } hN
      (by dsimp only; omega) (by dsimp only; push_cast at hmax; omega)
    rw [ih]
    dsimp only
    rw [List.range_succ_eq_map, List.map_cons, List.map_map]
    have hf : ({ d with nextDeliverIndex := d.nextDeliverIndex + 1 } : deliverManager).roundRobin
        = d.roundRobin ∘ Nat.succ := by
      funext j
      simp [roundRobin_succ]
    rw [hf]
    congr 3
    push_cast
    ring

theorem roundRobin_injOn (d : deliverManager) (h0 : 0 ≤ d.nextDeliverIndex) {i j : Nat}
    (hi : i < d.deliverrs.length) (hj : j < d.deliverrs.length)
    (h : d.roundRobin i = d.roundRobin j) : i = j := by
  unfold roundRobin at h
  obtain ⟨a, ha⟩ := Int.eq_ofNat_of_zero_le h0
  rw [ha] at h
  have h1 : ((a : Int) + i) % (d.deliverrs.length : Int) = ((a + i) % d.deliverrs.length : Nat) := by
    push_cast
    rfl
  have h2 : ((a : Int) + j) % (d.deliverrs.length : Int) = ((a + j) % d.deliverrs.length : Nat) := by
    push_cast
    rfl
  rw [h1, h2, Int.toNat_ofNat, Int.toNat_ofNat] at h
  have h3 : (a + i) ≡ (a + j) [MOD d.deliverrs.length] := h
  have h4 : i ≡ j [MOD d.deliverrs.length] := Nat.ModEq.add_left_cancel' a h3
  unfold Nat.ModEq at h4
  rwa [Nat.mod_eq_of_lt hi, Nat.mod_eq_of_lt hj] at h4

/-- C7, as stated, fails: with three workers and the counter at the largest Go `int`
(a non-negative starting value), the first call returns worker 1 and the counter wraps to the
smallest `int` instead of growing by one; the second call then indexes out of range, so three
consecutive calls do not return. -/
theorem nextDeliver_counterexample :
    0 ≤ Demo.lateManager.nextDeliverIndex ∧ Demo.lateManager.deliverrs.length = 3 ∧
    Demo.lateManager.nextDeliver =
      some (1, { Demo.lateManager with nextDeliverIndex := -9223372036854775808 }) ∧
    nextDeliverN 3 Demo.lateManager = none := by
  decide

/-- C7, amended: for a pool of `N ≥ 1` workers and a starting counter `c ≥ 0` with
`c + N < 2 ^ 63` (no wrap of the Go `int` within the calls), for every `k ≤ N` the first `k`
calls of `nextDeliver` return the workers `(c + 0) mod N, …, (c + k - 1) mod N` and leave the
counter at `c + k` (each call adds exactly one); every returned index is within bounds; and the
`N` workers returned by `N` calls are each of the `N` workers exactly once. -/
theorem nextDeliver_round_robin (d : deliverManager) (hN : 1 ≤ d.deliverrs.length)
    (h0 : 0 ≤ d.nextDeliverIndex)
    (hmax : d.nextDeliverIndex + d.deliverrs.length < 2 ^ 63) :
    (∀ k ≤ d.deliverrs.length,
      nextDeliverN k d =
        some ((List.range k).map (fun j : Nat => ((d.nextDeliverIndex + j) % d.deliverrs.length).toNat),
          { d with nextDeliverIndex := d.nextDeliverIndex + k })) ∧
    (∀ j : Nat, ((d.nextDeliverIndex + j) % d.deliverrs.length).toNat < d.deliverrs.length) ∧
    ((List.range d.deliverrs.length).map
        (fun j : Nat => ((d.nextDeliverIndex + j) % d.deliverrs.length).toNat)).Perm
      (List.range d.deliverrs.length) := by
  refine ⟨?_, fun j => roundRobin_lt d j hN, ?_⟩
  · intro k hk
    have hk1 : d.nextDeliverIndex + k < 2 ^ 63 := by
      have : (k : Int) ≤ d.deliverrs.length := by exact_mod_cast hk
      omega
    exact nextDeliverN_eq k d hN h0 hk1
  · apply List.Subperm.perm_of_length_le
    · apply List.subperm_of_subset
      · apply List.Nodup.map_on _ (List.nodup_range _)
        intro i hi j hj h
        exact roundRobin_injOn d h0 (List.mem_range.mp hi) (List.mem_range.mp hj) h
      · intro x hx
        rcases List.mem_map.mp hx with ⟨j, _, rfl⟩
        exact List.mem_range.mpr (roundRobin_lt d j hN)
    · simp

/-- Evaluation of C7 (amended): three workers, counter at 7: the next three calls return the
workers 1, 2, 0 and leave the counter at 10. -/
theorem nextDeliver_round_robin_witness :
    (1 ≤ ({ deliverrs := [Demo.idle, Demo.idle, Demo.idle], nextDeliverIndex := 7 } :
        deliverManager).deliverrs.length ∧
      (0 : Int) ≤ 7 ∧ (7 : Int) + (3 : Nat) < 2 ^ 63) ∧
    nextDeliverN 3 { deliverrs := [Demo.idle, Demo.idle, Demo.idle], nextDeliverIndex := 7 } =
      some ([1, 2, 0],
        { deliverrs := [Demo.idle, Demo.idle, Demo.idle], nextDeliverIndex := 10 }) :=
  ⟨⟨by decide, by decide, by decide⟩,
    (nextDeliver_round_robin
      { deliverrs := [Demo.idle, Demo.idle, Demo.idle], nextDeliverIndex := 7 }
      (by decide) (by decide) (by decide)).1 3 (by decide)⟩

end deliverManager

namespace deliverManager

theorem getElem?_of_hasRoom_false {d : deliverManager} {i : Nat} (hi : i < d.deliverrs.length)
    (h : d.hasRoom i = false) :
    ∃ w, d.deliverrs[i]? = some w ∧ ¬ w.reqC.length < deliverr.reqCCap := by
  unfold hasRoom at h
  rw [List.getElem?_eq_getElem hi] at h ⊢
  exact ⟨_, rfl, by simpa using h⟩

theorem getElem?_of_hasRoom_true {d : deliverManager} {i : Nat} (h : d.hasRoom i = true) :
    ∃ w, d.deliverrs[i]? = some w ∧ w.reqC.length < deliverr.reqCCap := by
  unfold hasRoom at h
  split at h
  · rename_i w hw
    exact ⟨w, hw, by simpa using h⟩
  · cases h

theorem hasRoom_succ (d : deliverManager) (i : Nat) :
    ({ d with nextDeliverIndex := d.nextDeliverIndex + 1 } : deliverManager).hasRoom i
      = d.hasRoom i := rfl

/-- The loop of `handleDeliver` when the next `n` workers in round-robin order are full and
`n` attempts remain: it makes those `n` attempts and gives up. -/
theorem handleDeliverLoop_full (maxRetry : Int) (req : deliverReq)
    (hmr : maxRetry + 1 < 2 ^ 63) :
    ∀ (n fuel : Nat) (retry : Int) (d : deliverManager),
      (maxRetry + 1 - retry).toNat = n → 0 ≤ retry → n < fuel →
      1 ≤ d.deliverrs.length → 0 ≤ d.nextDeliverIndex → d.nextDeliverIndex + n < 2 ^ 63 →
      (∀ j < n, d.hasRoom (d.roundRobin j) = false) →
      handleDeliverLoop maxRetry req fuel retry d =
        .ok ({ d with nextDeliverIndex := d.nextDeliverIndex + n },
          (List.range n).map (fun j => DispatchStep.full (d.roundRobin j))
            ++ [.error "deliver reqC full, retry too many times"])
  | 0, fuel, retry, d, hn, _, hfuel, _, _, _, _ => by
    obtain ⟨f, rfl⟩ : ∃ f, fuel = f + 1 := ⟨fuel - 1, by omega⟩
    unfold handleDeliverLoop
    rw [if_pos (by omega)]
    simp
  | n + 1, fuel, retry, d, hn, hr, hfuel, hN, h0, hmax, hfull => by
    obtain ⟨f, rfl⟩ : ∃ f, fuel = f + 1 := ⟨fuel - 1, by omega⟩
    have hmax1 : d.nextDeliverIndex + 1 < 2 ^ 63 := by push_cast at hmax; omega
    obtain ⟨w, hw, hwfull⟩ :=
      getElem?_of_hasRoom_false (roundRobin_lt d 0 hN) (hfull 0 (Nat.succ_pos n))
    have hgo : goInt (retry + 1) = retry + 1 := goInt_of_lt (by omega) (by omega)
    have ih := handleDeliverLoop_full maxRetry req hmr n f (retry + 1)
      { d with nextDeliverIndex := d.nextDeliverIndex + 1 } (by omega) (by omega) (by omega)
      hN (by dsimp only; omega) (by dsimp only; push_cast at hmax; omega)
      (fun j hj => by
        rw [roundRobin_succ, hasRoom_succ]
        exact hfull (j + 1) (by omega))
    unfold handleDeliverLoop
    rw [if_neg (by omega), nextDeliver_eq d hN h0 hmax1]
    simp only [hw, if_neg hwfull, hgo, ih]
    have hf : ({ d with nextDeliverIndex := d.nextDeliverIndex + 1 } : deliverManager).roundRobin
        = d.roundRobin ∘ Nat.succ := by
      funext j
      simp [roundRobin_succ]
    rw [hf, List.range_succ_eq_map, List.map_cons, List.map_map]
    congr 3
    push_cast
    ring

/-- The loop of `handleDeliver` when the next `j0` workers in round-robin order are full, the
one after them has room and more than `j0` attempts remain: the request goes to that worker. -/
theorem handleDeliverLoop_room (maxRetry : Int) (req : deliverReq)
    (hmr : maxRetry + 1 < 2 ^ 63) :
    ∀ (j0 fuel : Nat) (retry : Int) (d : deliverManager),
      retry + j0 ≤ maxRetry → 0 ≤ retry → j0 < fuel →
      1 ≤ d.deliverrs.length → 0 ≤ d.nextDeliverIndex →
      d.nextDeliverIndex + (j0 + 1 : Nat) < 2 ^ 63 →
      (∀ j < j0, d.hasRoom (d.roundRobin j) = false) →
      d.hasRoom (d.roundRobin j0) = true →
      handleDeliverLoop maxRetry req fuel retry d =
        .ok (({ d with nextDeliverIndex := d.nextDeliverIndex + (j0 + 1 : Nat) } :
              deliverManager).enqueue (d.roundRobin j0) req,
          (List.range j0).map (fun j => DispatchStep.full (d.roundRobin j))
            ++ [.sent (d.roundRobin j0)])
  | 0, fuel, retry, d, hret, _, hfuel, hN, h0, hmax, _, hroom => by
    obtain ⟨f, rfl⟩ : ∃ f, fuel = f + 1 := ⟨fuel - 1, by omega⟩
    have hmax1 : d.nextDeliverIndex + 1 < 2 ^ 63 := by push_cast at hmax; omega
    obtain ⟨w, hw, hwroom⟩ := getElem?_of_hasRoom_true hroom
    unfold handleDeliverLoop
    rw [if_neg (by omega), nextDeliver_eq d hN h0 hmax1]
    simp [hw, if_pos hwroom, enqueue]
  | j0 + 1, fuel, retry, d, hret, hr, hfuel, hN, h0, hmax, hfull, hroom => by
    obtain ⟨f, rfl⟩ : ∃ f, fuel = f + 1 := ⟨fuel - 1, by omega⟩
    have hmax1 : d.nextDeliverIndex + 1 < 2 ^ 63 := by push_cast at hmax; omega
    obtain ⟨w, hw, hwfull⟩ :=
      getElem?_of_hasRoom_false (roundRobin_lt d 0 hN) (hfull 0 (Nat.succ_pos j0))
    have hgo : goInt (retry + 1) = retry + 1 := goInt_of_lt (by omega) (by push_cast at hret; omega)
    have ih := handleDeliverLoop_room maxRetry req hmr j0 f (retry + 1)
      { d with nextDeliverIndex := d.nextDeliverIndex + 1 } (by push_cast at hret; omega)
      (by omega) (by omega) hN (by dsimp only; omega)
      (by dsimp only; push_cast at hmax ⊢; omega)
      (fun j hj => by
        rw [roundRobin_succ, hasRoom_succ]
        exact hfull (j + 1) (by omega))
      (by rw [roundRobin_succ, hasRoom_succ]; exact hroom)
    unfold handleDeliverLoop
    rw [if_neg (by push_cast at hret; omega), nextDeliver_eq d hN h0 hmax1]
    simp only [hw, if_neg hwfull, hgo, ih]
    have hf : ({ d with nextDeliverIndex := d.nextDeliverIndex + 1 } : deliverManager).roundRobin
        = d.roundRobin ∘ Nat.succ := by
      funext j
      simp [roundRobin_succ]
    rw [hf, List.range_succ_eq_map, List.map_cons, List.map_map]
    simp only [Function.comp_apply, Nat.succ_eq_add_one, List.cons_append]
    congr 4
    push_cast
    ring

set_option maxRecDepth 100000 in
/-- C8, as stated, fails: with `MaxRetry = 2` and two workers whose inboxes are both full,
`handleDeliver` makes three enqueue attempts (on workers 0, 1, 0), one more than `MaxRetry`,
before it logs the error and drops the request. -/
theorem handleDeliver_counterexample :
    Demo.server.opts.maxRetry = 2 ∧
    (∀ w ∈ [Demo.busy, Demo.busy], w.reqC.length = deliverr.reqCCap) ∧
    handleDeliver Demo.server { deliverrs := [Demo.busy, Demo.busy], nextDeliverIndex := 0 }
        (Demo.request []) 8 =
      .ok ({ deliverrs := [Demo.busy, Demo.busy], nextDeliverIndex := 3 },
        [.full 0, .full 1, .full 0, .error "deliver reqC full, retry too many times"]) :=
  ⟨rfl, by decide, rfl⟩

/-- C8, amended: dispatch makes at most `MaxRetry + 1` attempts.  Let the pool have `N ≥ 1`
workers, let the counter be non-negative and far enough from the largest Go `int` that neither
it nor `retry` wraps, and let the fuel exceed `MaxRetry + 1`.  Then `handleDeliver` returns, and
(a) if the first `MaxRetry + 1` workers in round-robin order are all full (in particular if every
inbox is full), it makes exactly those `MaxRetry + 1` non-blocking attempts, logs the error and
leaves every inbox as it was; (b) if worker number `j0 < MaxRetry + 1` in round-robin order is
the first with room, it makes `j0` failed attempts and then puts the request into the inbox of
that worker and of no other. -/
theorem handleDeliver_dispatch (s : Server) (d : deliverManager) (req : deliverReq)
    (fuel : Nat) (hN : 1 ≤ d.deliverrs.length) (h0 : 0 ≤ d.nextDeliverIndex)
    (hmr : s.opts.maxRetry + 1 < 2 ^ 63)
    (hmax : d.nextDeliverIndex + (s.opts.maxRetry + 1).toNat < 2 ^ 63)
    (hfuel : (s.opts.maxRetry + 1).toNat < fuel) :
    ((∀ j < (s.opts.maxRetry + 1).toNat, d.hasRoom (d.roundRobin j) = false) →
      handleDeliver s d req fuel =
        .ok ({ d with nextDeliverIndex := d.nextDeliverIndex + (s.opts.maxRetry + 1).toNat },
          (List.range (s.opts.maxRetry + 1).toNat).map
              (fun j => DispatchStep.full (d.roundRobin j))
            ++ [.error "deliver reqC full, retry too many times"])) ∧
    (∀ j0 < (s.opts.maxRetry + 1).toNat,
      (∀ j < j0, d.hasRoom (d.roundRobin j) = false) → d.hasRoom (d.roundRobin j0) = true →
      handleDeliver s d req fuel =
        .ok (({ d with nextDeliverIndex := d.nextDeliverIndex + (j0 + 1 : Nat) } :
              deliverManager).enqueue (d.roundRobin j0) req,
          (List.range j0).map (fun j => DispatchStep.full (d.roundRobin j))
            ++ [.sent (d.roundRobin j0)])) := by
  constructor
  · intro hfull
    exact handleDeliverLoop_full s.opts.maxRetry req hmr _ fuel 0 d (by simp) (le_refl _)
      hfuel hN h0 hmax hfull
  · intro j0 hj0 hfull hroom
    exact handleDeliverLoop_room s.opts.maxRetry req hmr j0 fuel 0 d (by omega) (le_refl _)
      (by omega) hN h0 (by omega) hfull hroom

set_option maxRecDepth 100000 in
/-- Evaluation of C8 (amended): with `MaxRetry = 2`, a full worker 0 and an idle worker 1, the
request is put into the inbox of worker 1 after one failed attempt. -/
theorem handleDeliver_dispatch_witness :
    (1 ≤ ({ deliverrs := [Demo.busy, Demo.idle], nextDeliverIndex := 0 } :
        deliverManager).deliverrs.length ∧
      Demo.server.opts.maxRetry + 1 < 2 ^ 63 ∧
      (Demo.server.opts.maxRetry + 1).toNat < 8) ∧
    handleDeliver Demo.server { deliverrs := [Demo.busy, Demo.idle], nextDeliverIndex := 0 }
        (Demo.request [Demo.fromBob]) 8 =
      .ok (({ deliverrs := [Demo.busy, Demo.idle], nextDeliverIndex := 0 + (1 + 1 : Nat) } :
            deliverManager).enqueue
          (({ deliverrs := [Demo.busy, Demo.idle], nextDeliverIndex := 0 } :
            deliverManager).roundRobin 1) (Demo.request [Demo.fromBob]),
        (List.range 1).map
            (fun j => DispatchStep.full
              (({ deliverrs := [Demo.busy, Demo.idle], nextDeliverIndex := 0 } :
                deliverManager).roundRobin j))
          ++ [.sent (({ deliverrs := [Demo.busy, Demo.idle], nextDeliverIndex := 0 } :
                deliverManager).roundRobin 1)]) ∧
    (({ deliverrs := [Demo.busy, Demo.idle], nextDeliverIndex := 2 } :
        deliverManager).enqueue 1 (Demo.request [Demo.fromBob])).deliverrs
      = [Demo.busy, { reqC := [Demo.request [Demo.fromBob]] }] :=
  ⟨⟨by decide, by decide, by decide⟩,
    (handleDeliver_dispatch Demo.server
      { deliverrs := [Demo.busy, Demo.idle], nextDeliverIndex := 0 }
      (Demo.request [Demo.fromBob]) 8 (by decide) (by decide) (by decide) (by decide)
      (by decide)).2 1 (by decide) (by decide) (by decide),
    by decide⟩

end deliverManager

/-! ## Claims about tag resolution and the partition split -/

namespace deliverr

theorem site_none_traceMessages {s : Server} {req : deliverReq} {msg op : String} :
    ∀ e ∈ traceMessages s req msg op, ∃ c, e.eff = .messageTrace msg c op := by
  intro e he
  unfold traceMessages at he
  split at he
  · rcases List.mem_map.mp he with ⟨m, _, rfl⟩
    exact ⟨_, rfl⟩
  · cases he

/-- C9: abandonment.  When the tag of the request is not cached and tag resolution fails (the
leader lookup returns an error; or this node is the leader and `makeReceiverTag` fails; or the
leader is remote and the `/wk/getNodeUidsByTag` request errors or times out, returns a non-OK
status, or returns a body that does not decode), `handleDeliverReq` performs no connection write,
no retry registration, no webhook call, no conversation push, no forward to another node and no
tag insertion, and leaves the tag cache as it was. -/
theorem handleDeliverReq_abandoned (s : Server) (tm : tagManager) (tick : Nat)
    (req : deliverReq) (hmiss : tm.getReceiverTag req.tagKey = none)
    (hfail :
      (∃ err, s.leaderOfChannelForRead req.channelId req.channelType = .error err) ∨
      (∃ err, s.leaderOfChannelForRead req.channelId req.channelType = .ok s.opts.nodeId ∧
        s.makeReceiverTag req.ch = .error err) ∨
      (∃ leader, s.leaderOfChannelForRead req.channelId req.channelType = .ok leader ∧
        leader ≠ s.opts.nodeId ∧
        ((∃ err, s.requestWithContext leader "/wk/getNodeUidsByTag"
              (s.marshalTagReq
                { channelId := req.channelId, channelType := req.channelType,
                  tagKey := req.tagKey, nodeId := s.opts.nodeId }) = .error err) ∨
          (∃ resp, s.requestWithContext leader "/wk/getNodeUidsByTag"
              (s.marshalTagReq
                { channelId := req.channelId, channelType := req.channelType,
                  tagKey := req.tagKey, nodeId := s.opts.nodeId }) = .ok resp ∧
            (resp.status ≠ s.statusOK ∨
              ∃ err, s.unmarshalTagResp resp.body = .error err))))) :
    (handleDeliverReq s tm tick req).2 = tm ∧
    ∀ e ∈ (handleDeliverReq s tm tick req).1,
      e.eff.isLocalDelivery = false ∧ e.eff.isNodeDeliver = false ∧
        e.eff.isTagInsert = false := by
  have hres : ∃ evs, resolveTag s tm req = (evs, none, tm) ∧
      ∀ e ∈ evs, e.eff.isLocalDelivery = false ∧ e.eff.isNodeDeliver = false ∧
        e.eff.isTagInsert = false := by
    unfold resolveTag
    rw [hmiss]
    dsimp only
    rcases hfail with ⟨err, h⟩ | ⟨err, h1, h2⟩ | ⟨leader, h1, hne, h2⟩
    · rw [h]
      refine ⟨_, rfl, ?_⟩
      intro e he
      simp only [List.mem_singleton] at he
      subst he
      exact ⟨rfl, rfl, rfl⟩
    · rw [h1]
      dsimp only
      rw [if_pos rfl, h2]
      refine ⟨_, rfl, ?_⟩
      intro e he
      simp only [List.mem_append, List.mem_singleton] at he
      rcases he with ((he | he) | he) | he
      · obtain ⟨c, hc⟩ := site_none_traceMessages e he
        rw [hc]
        exact ⟨rfl, rfl, rfl⟩
      · subst he
        exact ⟨rfl, rfl, rfl⟩
      · subst he
        exact ⟨rfl, rfl, rfl⟩
      · obtain ⟨c, hc⟩ := site_none_traceMessages e he
        rw [hc]
        exact ⟨rfl, rfl, rfl⟩
    · rw [h1]
      dsimp only
      rw [if_neg hne]
      have hreq : ∃ err, requestNodeChannelTag s leader
          { channelId := req.channelId, channelType := req.channelType,
            tagKey := req.tagKey, nodeId := s.opts.nodeId } = .error err := by
        unfold requestNodeChannelTag
        dsimp only
        rcases h2 with ⟨err, h⟩ | ⟨resp, h, h3⟩
        · rw [h]
          exact ⟨_, rfl⟩
        · rw [h]
          dsimp only
          by_cases hst : resp.status ≠ s.statusOK
          · rw [if_pos hst]
            exact ⟨_, rfl⟩
          · rw [if_neg hst]
            rcases h3 with h3 | ⟨err, h3⟩
            · exact absurd h3 hst
            · rw [h3]
              exact ⟨_, rfl⟩
      obtain ⟨err, hreq⟩ := hreq
      rw [hreq]
      refine ⟨_, rfl, ?_⟩
      intro e he
      simp only [List.mem_append, List.mem_singleton] at he
      rcases he with ((he | he) | he) | he
      · obtain ⟨c, hc⟩ := site_none_traceMessages e he
        rw [hc]
        exact ⟨rfl, rfl, rfl⟩
      · subst he
        exact ⟨rfl, rfl, rfl⟩
      · subst he
        exact ⟨rfl, rfl, rfl⟩
      · obtain ⟨c, hc⟩ := site_none_traceMessages e he
        rw [hc]
        exact ⟨rfl, rfl, rfl⟩
  obtain ⟨evs, h1, h2⟩ := hres
  unfold handleDeliverReq
  rw [h1]
  exact ⟨rfl, h2⟩

/-- Evaluation of C9: the tag `tag1` is not cached, the leader is the remote node 7 and the
request to it runs into its deadline: the only effects are the request and the error log. -/
theorem handleDeliverReq_abandoned_witness :
    (({ tags := [] } : tagManager).getReceiverTag (Demo.request [Demo.fromBob]).tagKey = none ∧
      Demo.server.leaderOfChannelForRead "g1" 2 = .ok 7 ∧ 7 ≠ Demo.server.opts.nodeId ∧
      Demo.server.requestWithContext 7 "/wk/getNodeUidsByTag"
        (Demo.server.marshalTagReq
          { channelId := "g1", channelType := 2, tagKey := "tag1", nodeId := 1 })
        = .error "context deadline exceeded") ∧
    handleDeliverReq Demo.server { tags := [] } 0 (Demo.request [Demo.fromBob]) =
      ([⟨none, .request 7 "/wk/getNodeUidsByTag" [116, 97, 103, 49]⟩,
        ⟨none, .error "requestNodeTag failed"⟩], { tags := [] }) ∧
    ((handleDeliverReq Demo.server { tags := [] } 0 (Demo.request [Demo.fromBob])).2
        = { tags := [] } ∧
      ∀ e ∈ (handleDeliverReq Demo.server { tags := [] } 0 (Demo.request [Demo.fromBob])).1,
        e.eff.isLocalDelivery = false ∧ e.eff.isNodeDeliver = false ∧
          e.eff.isTagInsert = false) :=
  ⟨⟨by decide, rfl, by decide, rfl⟩, by decide,
    handleDeliverReq_abandoned Demo.server { tags := [] } 0 (Demo.request [Demo.fromBob])
      (by decide) (Or.inr (Or.inr ⟨7, rfl, by decide, Or.inl ⟨_, rfl⟩⟩))⟩

end deliverr

namespace deliverr

theorem deliverPartitions_append (s : Server) (req : deliverReq) :
    ∀ (l₁ l₂ : List nodeUsers) (tick : Nat),
      deliverPartitions s req tick (l₁ ++ l₂) =
        deliverPartitions s req tick l₁
          ++ deliverPartitions s req (tick + partitionsTicks s req l₁) l₂
  | [], l₂, tick => by simp [deliverPartitions, partitionsTicks]
  | nu :: rest, l₂, tick => by
    have ih := deliverPartitions_append s req rest l₂ (tick + partitionTicks s req nu)
    have ht : tick + partitionTicks s req nu + partitionsTicks s req rest
        = tick + partitionsTicks s req (nu :: rest) := by
      simp only [partitionsTicks, List.map_cons, List.sum_cons]
      omega
    show deliverPartitions s req tick (nu :: (rest ++ l₂)) = _
    rw [deliverPartitions, deliverPartitions, ih, List.append_assoc, ht]

/-- No event of the local deliver step is a forward to another node. -/
theorem not_nodeDeliver_of_mem_deliver {s : Server} {t : Nat} {req : deliverReq}
    {uids : List String} {e : Event} (he : e ∈ deliver s t req uids) :
    e.eff.isNodeDeliver = false := by
  unfold deliver at he
  split at he
  · cases he
  · simp only [List.mem_append] at he
    rcases he with (h | h) | h
    · unfold traceDeliver at h
      split at h
      · rcases List.mem_flatMap.mp h with ⟨msg, _, hm⟩
        split at hm
        · dsimp only at hm
          split at hm
          · simp only [List.mem_singleton] at hm
            rw [hm]
            rfl
          · cases hm
        · cases hm
      · cases h
    · rcases kinds_of_mem_deliverConns h with h1 | h1 | h1 | h1 | h1
      · obtain ⟨x, h1⟩ := h1
        rw [h1]
        rfl
      · obtain ⟨x, h1⟩ := h1
        rw [h1]
        rfl
      · obtain ⟨x, h1⟩ := h1
        rw [h1]
        rfl
      · obtain ⟨x, y, z, h1⟩ := h1
        rw [h1]
        rfl
      · obtain ⟨x, h1⟩ := h1
        rw [h1]
        rfl
    · unfold notifyOffline at h
      split at h
      · rcases List.mem_map.mp h with ⟨m1, _, h2⟩
        rw [← h2]
        rfl
      · cases h

/-- C10: the partition split.  Let the tag of the request be resolved to `tg` (with effects
`evs`), and let `nodeUser` be a partition of `tg.users`, after the partitions `before` and
ahead of the partitions `after`.  Then the trace of `handleDeliverReq` is `evs`, the effects for
`before`, the effects for `nodeUser`, the effects for `after`, in this order, and:
if `nodeUser.nodeId` differs from this node's id, the effects for `nodeUser` hold exactly one
forward call, `nodeManager.deliver(nodeUser.nodeId, req)` with the original request, and no
connection write, retry registration, webhook call or conversation push;
if `nodeUser.nodeId` is this node's id, the effects for `nodeUser` are the conversation push for
`nodeUser.uids` followed by the local deliver step run with exactly `nodeUser.uids`, and hold no
forward call. -/
theorem handleDeliverReq_partitions (s : Server) (tm tm1 : tagManager) (tick : Nat)
    (req : deliverReq) (evs : List Event) (tg : ReceiverTag)
    (before after : List nodeUsers) (nodeUser : nodeUsers)
    (hres : resolveTag s tm req = (evs, some tg, tm1))
    (husers : tg.users = before ++ nodeUser :: after) :
    (handleDeliverReq s tm tick req).1 =
      evs ++ (deliverPartitions s req tick before
        ++ (deliverPartition s (tick + partitionsTicks s req before) req nodeUser
        ++ deliverPartitions s req
            (tick + partitionsTicks s req before + partitionTicks s req nodeUser) after)) ∧
    (nodeUser.nodeId ≠ s.opts.nodeId →
      (deliverPartition s (tick + partitionsTicks s req before) req nodeUser).filter
          (fun e => e.eff.isNodeDeliver) = [⟨none, .nodeDeliver nodeUser.nodeId req⟩] ∧
      ∀ e ∈ deliverPartition s (tick + partitionsTicks s req before) req nodeUser,
        e.eff.isLocalDelivery = false) ∧
    (nodeUser.nodeId = s.opts.nodeId →
      deliverPartition s (tick + partitionsTicks s req before) req nodeUser =
        ⟨none, .conversationPush req.channelId req.channelType nodeUser.uids req.messages⟩ ::
          deliver s (tick + partitionsTicks s req before) req nodeUser.uids ∧
      ∀ e ∈ deliverPartition s (tick + partitionsTicks s req before) req nodeUser,
        e.eff.isNodeDeliver = false) := by
  refine ⟨?_, ?_, ?_⟩
  · unfold handleDeliverReq
    rw [hres]
    dsimp only
    rw [husers, deliverPartitions_append]
    simp only [deliverPartitions]
  · intro hne
    have hne1 : ¬ s.opts.nodeId = nodeUser.nodeId := fun h => hne h.symm
    unfold deliverPartition
    rw [if_neg hne1]
    constructor
    · rw [List.filter_append]
      have h0 : (traceMessages s req "转发投递消息" "forwardDeliver").filter
          (fun e => e.eff.isNodeDeliver) = [] := by
        rw [List.filter_eq_nil_iff]
        intro e he
        obtain ⟨c, hc⟩ := site_none_traceMessages e he
        rw [hc]
        simp [Effect.isNodeDeliver]
      rw [h0]
      simp [Effect.isNodeDeliver]
    · intro e he
      simp only [List.mem_append, List.mem_singleton] at he
      rcases he with he | he
      · obtain ⟨c, hc⟩ := site_none_traceMessages e he
        rw [hc]
        rfl
      · subst he
        rfl
  · intro heq
    unfold deliverPartition
    rw [if_pos heq.symm]
    refine ⟨rfl, ?_⟩
    intro e he
    simp only [List.singleton_append, List.mem_cons] at he
    rcases he with he | he
    · subst he
      rfl
    · exact not_nodeDeliver_of_mem_deliver he

/-- Evaluation of C10: the cached tag `tag1` splits into alice and bob on this node and dave on
node 2; the request is pushed and delivered locally for alice and bob, and forwarded once, as it
is, to node 2. -/
theorem handleDeliverReq_partitions_witness :
    (resolveTag Demo.server Demo.cache (Demo.request [Demo.fromBob]) =
        ([], some { key := "tag1"
                    users := [{ uids := ["alice", "bob"], nodeId := 1 },
                              { uids := ["dave"], nodeId := 2 }] }, Demo.cache) ∧
      ({ uids := ["dave"], nodeId := 2 } : nodeUsers).nodeId ≠ Demo.server.opts.nodeId) ∧
    (deliverPartition Demo.server
        (0 + partitionsTicks Demo.server (Demo.request [Demo.fromBob])
          [{ uids := ["alice", "bob"], nodeId := 1 }])
        (Demo.request [Demo.fromBob]) { uids := ["dave"], nodeId := 2 }).filter
      (fun e => e.eff.isNodeDeliver) = [⟨none, .nodeDeliver 2 (Demo.request [Demo.fromBob])⟩] ∧
    ((handleDeliverReq Demo.server Demo.cache 0 (Demo.request [Demo.fromBob])).1.map
        fun e => e.eff) =
      [ .conversationPush "g1" 2 ["alice", "bob"] [Demo.fromBob],
        .debug "deliver message to user",
        .addRetry { uid := "alice", connId := 11, messageId := 42,
                    recvPacketData := [103, 49, 107, 49, 104, 105] },
        .connWrite Demo.aliceApp [103, 49, 107, 49, 104, 105] 5,
        .debug "deliver message to user",
        .addRetry { uid := "alice", connId := 12, messageId := 42,
                    recvPacketData := [103, 49, 107, 50, 104, 105] },
        .connWrite Demo.aliceWeb [103, 49, 107, 50, 104, 105] 5,
        .notifyOfflineMsg Demo.fromBob ["bob"],
        .nodeDeliver 2 (Demo.request [Demo.fromBob]) ] :=
  ⟨⟨rfl, by decide⟩,
    ((handleDeliverReq_partitions Demo.server Demo.cache Demo.cache 0
      (Demo.request [Demo.fromBob]) []
      { key := "tag1"
        users := [{ uids := ["alice", "bob"], nodeId := 1 }, { uids := ["dave"], nodeId := 2 }] }
      [{ uids := ["alice", "bob"], nodeId := 1 }] [] { uids := ["dave"], nodeId := 2 }
      rfl rfl).2.1 (by decide)).1,
    by decide⟩

end deliverr

/-! ## Claims about the webhook list and the order of writes -/

namespace deliverr

/-- C11 fails on the code: with uids `[alice, bob]`, one message of carol, alice online with one
connection and a master device, and bob known to the directory with zero connections (hence no
master device), `deliver` writes once to alice and calls the webhook once, but the uid list it
passes is `["bob", "bob"]`: bob is appended by the no-master-device test and again by the
zero-connections test. -/
theorem deliver_offline_list_duplicate :
    Demo.serverBobIdle.getUser "alice"
        = some { hasMasterDevice := true, conns := [Demo.aliceApp] } ∧
    Demo.serverBobIdle.getUser "bob" = some { hasMasterDevice := false, conns := [] } ∧
    (recipients Demo.serverBobIdle ["alice", "bob"]).webhookOfflineUids = ["bob", "bob"] ∧
    (deliver Demo.serverBobIdle 0 (Demo.request [Demo.fromCarol]) ["alice", "bob"]).filter
        (fun e => e.eff.isNotifyOfflineMsg) =
      [⟨none, .notifyOfflineMsg Demo.fromCarol ["bob", "bob"]⟩] ∧
    (deliver Demo.serverBobIdle 0 (Demo.request [Demo.fromCarol]) ["alice", "bob"]).filterMap
        Event.writeTarget = [(Demo.aliceApp, Demo.fromCarol)] := by
  decide

end deliverr

namespace deliverr

theorem allConns_classify (s : Server) :
    ∀ (uids : List String) (acc : Recipients),
      (classify s uids acc).allConns = acc.allConns ++ uids.flatMap (connsOf s)
  | [], acc => by simp [classify]
  | toUid :: rest, acc => by
    unfold classify
    split
    · rename_i hu
      rw [allConns_classify s rest]
      simp [connsOf, hu]
    · rename_i u hu
      dsimp only
      split
      · rename_i hc
        rw [allConns_classify s rest]
        have hc1 : u.conns = [] := List.length_eq_zero.mp hc
        by_cases hm : u.hasMasterDevice <;> simp [connsOf, hu, hc1, hm]
      · rw [allConns_classify s rest]
        by_cases hm : u.hasMasterDevice <;> simp [connsOf, hu, hm]

theorem writeTarget_deliverPair {s : Server} {k : Nat} {c : ConnContext}
    {m : ReactorChannelMessage}
    (hok : isSelfSent c m = false → ∃ pkt data, sealedRecvPacket s k c m = .ok pkt ∧
      s.encodeFrame pkt c.protoVersion = .ok data) :
    (deliverPair s k c m).filterMap Event.writeTarget
      = if isSelfSent c m then [] else [(c, m)] := by
  by_cases hself : c.uid = m.fromUid ∧ c.deviceId = m.fromDeviceId
  · unfold deliverPair pairEffects isSelfSent
    simp [hself]
  · obtain ⟨pkt, data, hpkt, hdata⟩ := hok (by simp [isSelfSent, hself])
    unfold deliverPair pairEffects isSelfSent
    simp only [hself, if_false, hpkt, hdata, decide_False]
    unfold emit
    by_cases h1 : pkt.framer.noPersist <;> by_cases h2 : s.writeOk k c data <;>
      by_cases h3 : s.isClosed k c <;> simp [h1, h2, h3, Event.writeTarget]

theorem writeTarget_deliverMessages {s : Server} {c : ConnContext} :
    ∀ (ms : List ReactorChannelMessage) (t : Nat),
      (∀ k m, t ≤ k → k < t + ms.length → m ∈ ms → isSelfSent c m = false →
        ∃ pkt data, sealedRecvPacket s k c m = .ok pkt ∧
          s.encodeFrame pkt c.protoVersion = .ok data) →
      (deliverMessages s c t ms).filterMap Event.writeTarget
        = (ms.filter fun m => !isSelfSent c m).map fun m => (c, m)
  | [], t, _ => by simp [deliverMessages]
  | m :: rest, t, hok => by
    have hhead := writeTarget_deliverPair (s := s) (k := t) (c := c) (m := m)
      (hok t m (le_refl _) (by simp) (List.mem_cons_self _ _))
    have htail := writeTarget_deliverMessages rest (t + 1)
      (fun k m1 h1 h2 h3 =>
        hok k m1 (by omega) (by simp only [List.length_cons]; omega)
          (List.mem_cons_of_mem _ h3))
    rw [deliverMessages, List.filterMap_append, hhead, htail]
    by_cases h : isSelfSent c m <;> simp [h]

theorem writeTarget_deliverConns {s : Server} {ms : List ReactorChannelMessage} :
    ∀ (cs : List ConnContext) (t : Nat),
      (∀ k c m, t ≤ k → k < t + cs.length * ms.length → c ∈ cs → m ∈ ms →
        isSelfSent c m = false →
        ∃ pkt data, sealedRecvPacket s k c m = .ok pkt ∧
          s.encodeFrame pkt c.protoVersion = .ok data) →
      (deliverConns s ms t cs).filterMap Event.writeTarget
        = cs.flatMap fun c => (ms.filter fun m => !isSelfSent c m).map fun m => (c, m)
  | [], t, _ => by simp [deliverConns]
  | c :: rest, t, hok => by
    have hlen : (c :: rest).length * ms.length = ms.length + rest.length * ms.length := by
      simp only [List.length_cons, Nat.add_mul, Nat.one_mul]
      omega
    have hhead := writeTarget_deliverMessages (s := s) (c := c) ms t
      (fun k m h1 h2 h3 => hok k c m h1 (by rw [hlen]; omega) (List.mem_cons_self _ _) h3)
    have htail := writeTarget_deliverConns rest (t + ms.length)
      (fun k c1 m h1 h2 h3 h4 =>
        hok k c1 m (by omega) (by rw [hlen]; omega) (List.mem_cons_of_mem _ h3) h4)
    rw [deliverConns, List.filterMap_append, hhead, htail]
    simp

theorem writeTarget_of_site_none {l : List Event} (h : ∀ e ∈ l, e.site = none) :
    l.filterMap Event.writeTarget = [] := by
  rw [List.filterMap_eq_nil_iff]
  intro e he
  unfold Event.writeTarget
  rw [h e he]
  split
  · rename_i heq
    cases heq
  · rfl

theorem writes_to_conn (ms : List ReactorChannelMessage) (c : ConnContext) :
    ∀ cs : List ConnContext,
      ((cs.flatMap fun c1 => (ms.filter fun m => !isSelfSent c1 m).map
          fun m => (c1, m)).filter fun p => decide (p.1 = c)).map (fun p => p.2)
        = (cs.filter fun c1 => decide (c1 = c)).flatMap
            fun _ => ms.filter fun m => !isSelfSent c m
  | [] => by simp
  | c1 :: rest => by
    rw [List.flatMap_cons, List.filter_append, List.map_append, writes_to_conn ms c rest]
    by_cases h : c1 = c
    · subst h
      rw [List.filter_cons_of_pos (by simp), List.flatMap_cons]
      congr 1
      rw [List.filter_eq_self.mpr, List.map_map]
      · simp
      · intro p hp
        rcases List.mem_map.mp hp with ⟨m, _, rfl⟩
        simp
    · rw [List.filter_cons_of_neg (by simpa using h)]
      rw [List.filter_eq_nil_iff.mpr, List.map_nil, List.nil_append]
      intro p hp
      rcases List.mem_map.mp hp with ⟨m, _, rfl⟩
      simpa using h

/-- C12: order of writes.  Assume payload encryption, message-key derivation and frame encoding
succeed for the pairs this delivery handles: the pairs `(c, m)` of `allConns × messages` that
are not self-sent, at the iterations `tick ≤ k < tick + |allConns| * |messages|` of the loop.
Then `allConns` is the concatenation, in input uid order, of the connection lists of the known
users (a user without a master device included); the connection writes of `deliver`, in trace
order, are the pairs of `allConns × messages` enumerated with the connections in the outer loop
and the messages in the inner loop, minus the self-sent pairs; and so the messages written to
any one connection `c` are the messages of the request not sent by `c`, in input order (once per
occurrence of `c` in `allConns`). -/
theorem deliver_write_order (s : Server) (tick : Nat) (req : deliverReq) (uids : List String)
    (hok : ∀ k c m, tick ≤ k →
      k < tick + (recipients s uids).allConns.length * req.messages.length →
      c ∈ (recipients s uids).allConns → m ∈ req.messages → isSelfSent c m = false →
      ∃ pkt data, sealedRecvPacket s k c m = .ok pkt ∧
        s.encodeFrame pkt c.protoVersion = .ok data) :
    (recipients s uids).allConns = uids.flatMap (connsOf s) ∧
    (deliver s tick req uids).filterMap Event.writeTarget =
      (recipients s uids).allConns.flatMap
        (fun c => (req.messages.filter fun m => !isSelfSent c m).map fun m => (c, m)) ∧
    ∀ c, (((deliver s tick req uids).filterMap Event.writeTarget).filter
          fun p => decide (p.1 = c)).map (fun p => p.2) =
        ((recipients s uids).allConns.filter fun c1 => decide (c1 = c)).flatMap
          fun _ => req.messages.filter fun m => !isSelfSent c m := by
  have hall : (recipients s uids).allConns = uids.flatMap (connsOf s) := by
    unfold recipients
    rw [allConns_classify]
    rfl
  have hwr : (deliver s tick req uids).filterMap Event.writeTarget =
      (recipients s uids).allConns.flatMap
        (fun c => (req.messages.filter fun m => !isSelfSent c m).map fun m => (c, m)) := by
    unfold deliver
    split
    · rename_i h0
      have : uids = [] := List.length_eq_zero.mp h0
      subst this
      simp [recipients, classify]
    · rw [List.filterMap_append, List.filterMap_append,
        writeTarget_of_site_none site_none_traceDeliver,
        writeTarget_of_site_none site_none_notifyOffline,
        writeTarget_deliverConns _ tick hok]
      simp
  refine ⟨hall, hwr, ?_⟩
  intro c
  rw [hwr]
  exact writes_to_conn req.messages c _

/-- Evaluation of C12: a server whose cipher rejects the empty key, so that sealing does not
succeed for every conceivable connection; it succeeds for the connections of this delivery.  A
request with a message of alice's phone and one of bob, for alice and bob, writes bob's message
to the phone, then both messages to the browser. -/
theorem deliver_write_order_witness :
    (∃ c : ConnContext, ∀ pkt,
      sealedRecvPacket Demo.serverStrictCipher 0 c Demo.fromBob ≠ .ok pkt) ∧
    (∀ k c m, 0 ≤ k →
      k < 0 + (recipients Demo.serverStrictCipher ["alice", "bob"]).allConns.length *
        (Demo.request [Demo.fromAlicePhone, Demo.fromBob]).messages.length →
      c ∈ (recipients Demo.serverStrictCipher ["alice", "bob"]).allConns →
      m ∈ (Demo.request [Demo.fromAlicePhone, Demo.fromBob]).messages →
      isSelfSent c m = false →
      ∃ pkt data, sealedRecvPacket Demo.serverStrictCipher k c m = .ok pkt ∧
        Demo.serverStrictCipher.encodeFrame pkt c.protoVersion = .ok data) ∧
    (deliver Demo.serverStrictCipher 0 (Demo.request [Demo.fromAlicePhone, Demo.fromBob])
        ["alice", "bob"]).filterMap Event.writeTarget =
      (recipients Demo.serverStrictCipher ["alice", "bob"]).allConns.flatMap
        (fun c => ((Demo.request [Demo.fromAlicePhone, Demo.fromBob]).messages.filter
          fun m => !isSelfSent c m).map fun m => (c, m)) ∧
    (recipients Demo.serverStrictCipher ["alice", "bob"]).allConns.flatMap
        (fun c => ((Demo.request [Demo.fromAlicePhone, Demo.fromBob]).messages.filter
          fun m => !isSelfSent c m).map fun m => (c, m)) =
      [(Demo.aliceApp, Demo.fromBob), (Demo.aliceWeb, Demo.fromAlicePhone),
        (Demo.aliceWeb, Demo.fromBob)] := by
  have hconns : (recipients Demo.serverStrictCipher ["alice", "bob"]).allConns
      = [Demo.aliceApp, Demo.aliceWeb] := by decide
  have hok : ∀ k c m, 0 ≤ k →
      k < 0 + (recipients Demo.serverStrictCipher ["alice", "bob"]).allConns.length *
        (Demo.request [Demo.fromAlicePhone, Demo.fromBob]).messages.length →
      c ∈ (recipients Demo.serverStrictCipher ["alice", "bob"]).allConns →
      m ∈ (Demo.request [Demo.fromAlicePhone, Demo.fromBob]).messages →
      isSelfSent c m = false →
      ∃ pkt data, sealedRecvPacket Demo.serverStrictCipher k c m = .ok pkt ∧
        Demo.serverStrictCipher.encodeFrame pkt c.protoVersion = .ok data := by
    intro k c m _ _ hc _ _
    rw [hconns] at hc
    simp only [List.mem_cons, List.mem_singleton, List.not_mem_nil, or_false] at hc
    rcases hc with rfl | rfl
    · exact ⟨_, _, rfl, rfl⟩
    · exact ⟨_, _, rfl, rfl⟩
  refine ⟨⟨{ Demo.aliceApp with aesKey := "" }, ?_⟩, hok,
    (deliver_write_order Demo.serverStrictCipher 0
      (Demo.request [Demo.fromAlicePhone, Demo.fromBob]) ["alice", "bob"] hok).2.1,
    by decide⟩
  intro pkt h
  have h1 : sealedRecvPacket Demo.serverStrictCipher 0 { Demo.aliceApp with aesKey := "" }
      Demo.fromBob = .error [.error "加密payload失败！"] := rfl
  rw [h1] at h
  cases h

end deliverr

/-! ## Claims about the tag fetched from a remote leader -/

namespace deliverr

/-- The kinds of effect the local deliver step can have. -/
theorem kinds_of_mem_deliver {s : Server} {t : Nat} {req : deliverReq} {uids : List String}
    {e : Event} (he : e ∈ deliver s t req uids) :
    e.eff.isNodeDeliver = false ∧ e.eff.isTagInsert = false := by
  unfold deliver at he
  split at he
  · cases he
  · simp only [List.mem_append] at he
    rcases he with (h | h) | h
    · unfold traceDeliver at h
      split at h
      · rcases List.mem_flatMap.mp h with ⟨msg, _, hm⟩
        split at hm
        · dsimp only at hm
          split at hm
          · simp only [List.mem_singleton] at hm
            rw [hm]
            exact ⟨rfl, rfl⟩
          · cases hm
        · cases hm
      · cases h
    · rcases kinds_of_mem_deliverConns h with h1 | h1 | h1 | h1 | h1
      · obtain ⟨x, h1⟩ := h1
        rw [h1]
        exact ⟨rfl, rfl⟩
      · obtain ⟨x, h1⟩ := h1
        rw [h1]
        exact ⟨rfl, rfl⟩
      · obtain ⟨x, h1⟩ := h1
        rw [h1]
        exact ⟨rfl, rfl⟩
      · obtain ⟨x, y, z, h1⟩ := h1
        rw [h1]
        exact ⟨rfl, rfl⟩
      · obtain ⟨x, h1⟩ := h1
        rw [h1]
        exact ⟨rfl, rfl⟩
    · unfold notifyOffline at h
      split at h
      · rcases List.mem_map.mp h with ⟨m1, _, h2⟩
        rw [← h2]
        exact ⟨rfl, rfl⟩
      · cases h

theorem getReceiverTag_addOrUpdateReceiverTag (tm : tagManager) (tagKey : String)
    (users : List nodeUsers) :
    (tm.addOrUpdateReceiverTag tagKey users).2.getReceiverTag tagKey
      = some { key := tagKey, users := users } := by
  simp [tagManager.addOrUpdateReceiverTag, tagManager.getReceiverTag]

/-- C13, as stated, fails: the tag `tag1` of the request is not cached, the remote leader 7
answers with `{tagKey = "tag2", uids = [alice]}`; the tag is stored under the key of the
response, so a later lookup by the tag key of the request finds nothing. -/
theorem handleDeliverReq_remote_tag_counterexample :
    ({ tags := [] } : tagManager).getReceiverTag (Demo.request [Demo.fromBob]).tagKey = none ∧
    Demo.serverRemoteTag.leaderOfChannelForRead "g1" 2 = .ok 7 ∧
    requestNodeChannelTag Demo.serverRemoteTag 7
        { channelId := "g1", channelType := 2, tagKey := "tag1", nodeId := 1 }
      = .ok { tagKey := "tag2", uids := ["alice"] } ∧
    (handleDeliverReq Demo.serverRemoteTag { tags := [] } 0 (Demo.request [Demo.fromBob])).2
      = { tags := [{ key := "tag2", users := [{ uids := ["alice"], nodeId := 1 }] }] } ∧
    (handleDeliverReq Demo.serverRemoteTag { tags := [] } 0
        (Demo.request [Demo.fromBob])).2.getReceiverTag (Demo.request [Demo.fromBob]).tagKey
      = none :=
  ⟨by decide, rfl, rfl, by decide, by decide⟩

/-- C13, amended: when the tag of the request is not cached, the leader is a remote node and the
`/wk/getNodeUidsByTag` request (sent with the request's channelId, channelType, tagKey and
`nodeId` = this node) succeeds with the response `tagResp`, then `handleDeliverReq` sends that
request, inserts exactly one tag, keyed by `tagResp.tagKey` and consisting of the single partition
`{nodeId = this node, uids = tagResp.uids}`, pushes the conversation and runs the local deliver
step for exactly `tagResp.uids`, and makes no forward call; afterwards a lookup by
`tagResp.tagKey` returns that tag, and so does a lookup by the request's tagKey when the two keys
are equal. -/
theorem handleDeliverReq_remote_tag (s : Server) (tm : tagManager) (tick : Nat)
    (req : deliverReq) (leader : Nat) (resp : Response) (tagResp : tagResp)
    (hmiss : tm.getReceiverTag req.tagKey = none)
    (hleader : s.leaderOfChannelForRead req.channelId req.channelType = .ok leader)
    (hremote : leader ≠ s.opts.nodeId)
    (hreq : s.requestWithContext leader "/wk/getNodeUidsByTag"
        (s.marshalTagReq
          { channelId := req.channelId, channelType := req.channelType,
            tagKey := req.tagKey, nodeId := s.opts.nodeId }) = .ok resp)
    (hstatus : resp.status = s.statusOK)
    (hbody : s.unmarshalTagResp resp.body = .ok tagResp) :
    (handleDeliverReq s tm tick req).1 =
      traceMessages s req "请求接受者tag" "requestReceiverTag"
        ++ [⟨none, .request leader "/wk/getNodeUidsByTag"
              (s.marshalTagReq
                { channelId := req.channelId, channelType := req.channelType,
                  tagKey := req.tagKey, nodeId := s.opts.nodeId })⟩,
            ⟨none, .addOrUpdateReceiverTag tagResp.tagKey
              [{ uids := tagResp.uids, nodeId := s.opts.nodeId }]⟩,
            ⟨none, .conversationPush req.channelId req.channelType tagResp.uids req.messages⟩]
        ++ deliver s tick req tagResp.uids ∧
    (handleDeliverReq s tm tick req).1.filter (fun e => e.eff.isTagInsert) =
      [⟨none, .addOrUpdateReceiverTag tagResp.tagKey
        [{ uids := tagResp.uids, nodeId := s.opts.nodeId }]⟩] ∧
    (handleDeliverReq s tm tick req).1.filter (fun e => e.eff.isNodeDeliver) = [] ∧
    (handleDeliverReq s tm tick req).2.getReceiverTag tagResp.tagKey =
      some { key := tagResp.tagKey
             users := [{ uids := tagResp.uids, nodeId := s.opts.nodeId }] } ∧
    (tagResp.tagKey = req.tagKey →
      (handleDeliverReq s tm tick req).2.getReceiverTag req.tagKey =
        some { key := tagResp.tagKey
               users := [{ uids := tagResp.uids, nodeId := s.opts.nodeId }] }) := by
  have hrpc : requestNodeChannelTag s leader
      { channelId := req.channelId, channelType := req.channelType,
        tagKey := req.tagKey, nodeId := s.opts.nodeId } = .ok tagResp := by
    unfold requestNodeChannelTag
    dsimp only
    rw [hreq]
    dsimp only
    rw [if_neg (by simpa using hstatus), hbody]
  have hres : resolveTag s tm req =
      (traceMessages s req "请求接受者tag" "requestReceiverTag"
        ++ [⟨none, .request leader "/wk/getNodeUidsByTag"
              (s.marshalTagReq
                { channelId := req.channelId, channelType := req.channelType,
                  tagKey := req.tagKey, nodeId := s.opts.nodeId })⟩]
        ++ [⟨none, .addOrUpdateReceiverTag tagResp.tagKey
              [{ uids := tagResp.uids, nodeId := s.opts.nodeId }]⟩],
       some (tm.addOrUpdateReceiverTag tagResp.tagKey
              [{ uids := tagResp.uids, nodeId := s.opts.nodeId }]).1,
       (tm.addOrUpdateReceiverTag tagResp.tagKey
              [{ uids := tagResp.uids, nodeId := s.opts.nodeId }]).2) := by
    unfold resolveTag
    rw [hmiss]
    dsimp only
    rw [hleader]
    dsimp only
    rw [if_neg hremote, hrpc]
  have htrace : (handleDeliverReq s tm tick req).1 =
      traceMessages s req "请求接受者tag" "requestReceiverTag"
        ++ [⟨none, .request leader "/wk/getNodeUidsByTag"
              (s.marshalTagReq
                { channelId := req.channelId, channelType := req.channelType,
                  tagKey := req.tagKey, nodeId := s.opts.nodeId })⟩,
            ⟨none, .addOrUpdateReceiverTag tagResp.tagKey
              [{ uids := tagResp.uids, nodeId := s.opts.nodeId }]⟩,
            ⟨none, .conversationPush req.channelId req.channelType tagResp.uids req.messages⟩]
        ++ deliver s tick req tagResp.uids := by
    unfold handleDeliverReq
    rw [hres]
    simp [tagManager.addOrUpdateReceiverTag, deliverPartitions, deliverPartition]
  have hstate : (handleDeliverReq s tm tick req).2 =
      (tm.addOrUpdateReceiverTag tagResp.tagKey
        [{ uids := tagResp.uids, nodeId := s.opts.nodeId }]).2 := by
    unfold handleDeliverReq
    rw [hres]
  have htr : (traceMessages s req "请求接受者tag" "requestReceiverTag").filter
        (fun e => e.eff.isTagInsert) = [] ∧
      (traceMessages s req "请求接受者tag" "requestReceiverTag").filter
        (fun e => e.eff.isNodeDeliver) = [] := by
    constructor <;>
    · rw [List.filter_eq_nil_iff]
      intro e he
      obtain ⟨c, hc⟩ := site_none_traceMessages e he
      rw [hc]
      simp [Effect.isTagInsert, Effect.isNodeDeliver]
  have hdl : (deliver s tick req tagResp.uids).filter (fun e => e.eff.isTagInsert) = [] ∧
      (deliver s tick req tagResp.uids).filter (fun e => e.eff.isNodeDeliver) = [] := by
    constructor <;>
    · rw [List.filter_eq_nil_iff]
      intro e he
      simp [(kinds_of_mem_deliver he).1, (kinds_of_mem_deliver he).2]
  refine ⟨htrace, ?_, ?_, ?_, ?_⟩
  · rw [htrace, List.filter_append, List.filter_append, htr.1, hdl.1]
    simp [List.filter_cons, Effect.isTagInsert]
  · rw [htrace, List.filter_append, List.filter_append, htr.2, hdl.2]
    simp [List.filter_cons, Effect.isNodeDeliver]
  · rw [hstate]
    exact getReceiverTag_addOrUpdateReceiverTag _ _ _
  · intro hkey
    rw [hstate, ← hkey]
    exact getReceiverTag_addOrUpdateReceiverTag _ _ _

/-- Evaluation of C13 (amended): the tag `tag1` is not cached and the remote leader 7 answers
with `{tagKey = "tag2", uids = [alice]}`; the tag is found afterwards under `tag2`, and the
effects are the request, the insertion, the push and the local delivery to alice. -/
theorem handleDeliverReq_remote_tag_witness :
    (({ tags := [] } : tagManager).getReceiverTag (Demo.request [Demo.fromBob]).tagKey = none ∧
      Demo.serverRemoteTag.leaderOfChannelForRead "g1" 2 = .ok 7 ∧
      7 ≠ Demo.serverRemoteTag.opts.nodeId ∧
      Demo.serverRemoteTag.requestWithContext 7 "/wk/getNodeUidsByTag"
          (Demo.serverRemoteTag.marshalTagReq
            { channelId := "g1", channelType := 2, tagKey := "tag1", nodeId := 1 })
        = .ok { status := 1, body := [] } ∧
      ({ status := 1, body := [] } : Response).status = Demo.serverRemoteTag.statusOK ∧
      Demo.serverRemoteTag.unmarshalTagResp [] = .ok { tagKey := "tag2", uids := ["alice"] }) ∧
    (handleDeliverReq Demo.serverRemoteTag { tags := [] } 0
        (Demo.request [Demo.fromBob])).2.getReceiverTag "tag2" =
      some { key := "tag2", users := [{ uids := ["alice"], nodeId := 1 }] } ∧
    ((handleDeliverReq Demo.serverRemoteTag { tags := [] } 0
        (Demo.request [Demo.fromBob])).1.map fun e => e.eff) =
      [ .request 7 "/wk/getNodeUidsByTag" [116, 97, 103, 49],
        .addOrUpdateReceiverTag "tag2" [{ uids := ["alice"], nodeId := 1 }],
        .conversationPush "g1" 2 ["alice"] [Demo.fromBob],
        .debug "deliver message to user",
        .addRetry { uid := "alice", connId := 11, messageId := 42,
                    recvPacketData := [103, 49, 107, 49, 104, 105] },
        .connWrite Demo.aliceApp [103, 49, 107, 49, 104, 105] 5,
        .debug "deliver message to user",
        .addRetry { uid := "alice", connId := 12, messageId := 42,
                    recvPacketData := [103, 49, 107, 50, 104, 105] },
        .connWrite Demo.aliceWeb [103, 49, 107, 50, 104, 105] 5 ] :=
  ⟨⟨by decide, rfl, by decide, rfl, by decide, rfl⟩,
    (handleDeliverReq_remote_tag Demo.serverRemoteTag { tags := [] } 0
      (Demo.request [Demo.fromBob]) 7 { status := 1, body := [] }
      { tagKey := "tag2", uids := ["alice"] } (by decide) rfl (by decide) rfl (by decide)
      rfl).2.2.2.1,
    by decide⟩

end deliverr

/-! ## Claims about the cluster service handlers -/

namespace Server

theorem uidsOfNode_eq_find (nodeId : Nat) :
    ∀ users : List nodeUsers,
      uidsOfNode nodeId users =
        ((users.find? fun nodeUser => decide (nodeUser.nodeId = nodeId)).map
          fun nodeUser => nodeUser.uids).getD []
  | [] => rfl
  | nodeUser :: rest => by
    unfold uidsOfNode
    by_cases h : nodeUser.nodeId = nodeId
    · simp [h]
    · simp [h, uidsOfNode_eq_find nodeId rest]

/-- C14: the handler of `/wk/getNodeUidsByTag`.  For a decoded request `req`:
if `channelId` is empty, `nodeId` is zero or `tagKey` is empty, the only effect is an error
answer; if the request is valid and this node is not the leader of the channel, the answer is an
error with status `errCodeNotIsChannelLeader`; if the request is valid, this node is the leader
and the tag is cached, or is not cached and `makeReceiverTag` succeeds, the answer is the
marshalled `{tagKey = tag.key, uids}` where `uids` is the uid list of the first partition of the
tag whose `nodeId` is the one of the request, and the empty list when there is no such
partition. -/
theorem getNodeUidsByTag_answer (s : ClusterServer) (tm : tagManager) (body : Bytes)
    (req : tagReq) (hbody : s.unmarshalTagReq body = .ok req) :
    ((req.channelId = "" ∨ req.nodeId = 0 ∨ req.tagKey = "") →
      ∃ err, getNodeUidsByTag s tm body = [.writeErr err]) ∧
    ((req.channelId ≠ "" ∧ req.nodeId ≠ 0 ∧ req.tagKey ≠ "") →
      (s.isLeaderOfChannel req.channelId req.channelType = .ok false →
        getNodeUidsByTag s tm body =
          [.error "getNodeUidsByTag: not is leader",
            .writeErrorAndStatus "getNodeUidsByTag: not is leader"
              s.errCodeNotIsChannelLeader]) ∧
      (s.isLeaderOfChannel req.channelId req.channelType = .ok true →
        (∀ tag, tm.getReceiverTag req.tagKey = some tag →
          getNodeUidsByTag s tm body =
            [.write (s.marshalTagResp
              { tagKey := tag.key
                uids := ((tag.users.find? fun nodeUser =>
                  decide (nodeUser.nodeId = req.nodeId)).map
                    fun nodeUser => nodeUser.uids).getD [] })]) ∧
        (∀ tag, tm.getReceiverTag req.tagKey = none →
          s.makeReceiverTag (s.loadOrCreateChannel req.channelId req.channelType) = .ok tag →
          getNodeUidsByTag s tm body =
            [.makeReceiverTag (s.loadOrCreateChannel req.channelId req.channelType),
              .write (s.marshalTagResp
                { tagKey := tag.key
                  uids := ((tag.users.find? fun nodeUser =>
                    decide (nodeUser.nodeId = req.nodeId)).map
                      fun nodeUser => nodeUser.uids).getD [] })]))) := by
  constructor
  · intro hbad
    unfold getNodeUidsByTag
    rw [hbody]
    dsimp only
    by_cases h1 : req.channelId = ""
    · rw [if_pos h1]
      exact ⟨_, rfl⟩
    · rw [if_neg h1]
      by_cases h2 : req.nodeId = 0
      · rw [if_pos h2]
        exact ⟨_, rfl⟩
      · rw [if_neg h2]
        by_cases h3 : req.tagKey = ""
        · rw [if_pos h3]
          exact ⟨_, rfl⟩
        · rcases hbad with h | h | h
          · exact absurd h h1
          · exact absurd h h2
          · exact absurd h h3
  · rintro ⟨h1, h2, h3⟩
    refine ⟨?_, ?_⟩
    · intro hl
      unfold getNodeUidsByTag
      rw [hbody]
      dsimp only
      rw [if_neg h1, if_neg h2, if_neg h3, hl]
      rfl
    · intro hl
      refine ⟨?_, ?_⟩
      · intro tag htag
        unfold getNodeUidsByTag
        rw [hbody]
        dsimp only
        rw [if_neg h1, if_neg h2, if_neg h3, hl]
        dsimp only
        rw [htag, ← uidsOfNode_eq_find]
        rfl
      · intro tag htag hmake
        unfold getNodeUidsByTag
        rw [hbody]
        dsimp only
        rw [if_neg h1, if_neg h2, if_neg h3, hl]
        dsimp only
        rw [htag]
        dsimp only
        rw [hmake, ← uidsOfNode_eq_find]
        rfl

/-- Evaluation of C14: with the tag `tag1` cached (alice and bob on node 1, dave on node 2), a
request of node 2 for the channel `g1` is answered with `tag1` and dave, a request of node 3
with `tag1` and no uid, a request for the channel `g9`, which this node does not lead, with the
status 1002, and a request with an empty channel id with an error. -/
theorem getNodeUidsByTag_answer_witness :
    (Demo.clusterServer.unmarshalTagReq [2]
        = .ok { channelId := "g1", channelType := 2, tagKey := "tag1", nodeId := 2 } ∧
      Demo.clusterServer.isLeaderOfChannel "g1" 2 = .ok true ∧
      Demo.cache.getReceiverTag "tag1" =
        some { key := "tag1"
               users := [{ uids := ["alice", "bob"], nodeId := 1 },
                         { uids := ["dave"], nodeId := 2 }] }) ∧
    getNodeUidsByTag Demo.clusterServer Demo.cache [2] =
      [.write (Demo.clusterServer.marshalTagResp
        { tagKey := "tag1"
          uids := ((([{ uids := ["alice", "bob"], nodeId := 1 },
                      { uids := ["dave"], nodeId := 2 }] : List nodeUsers).find?
            fun nodeUser => decide (nodeUser.nodeId = 2)).map
              fun nodeUser => nodeUser.uids).getD [] })] ∧
    getNodeUidsByTag Demo.clusterServer Demo.cache [2]
      = [.write [116, 97, 103, 49, 100, 97, 118, 101]] ∧
    getNodeUidsByTag Demo.clusterServer Demo.cache [3] = [.write [116, 97, 103, 49]] ∧
    getNodeUidsByTag Demo.clusterServer Demo.cache [9] =
      [.error "getNodeUidsByTag: not is leader",
        .writeErrorAndStatus "getNodeUidsByTag: not is leader" 1002] ∧
    getNodeUidsByTag Demo.clusterServer Demo.cache [0] = [.writeErr "channelId is empty"] :=
  ⟨⟨rfl, rfl, by decide⟩,
    (((getNodeUidsByTag_answer Demo.clusterServer Demo.cache [2]
      { channelId := "g1", channelType := 2, tagKey := "tag1", nodeId := 2 } rfl).2
        ⟨by decide, by decide, by decide⟩).2 rfl).1
      { key := "tag1"
        users := [{ uids := ["alice", "bob"], nodeId := 1 }, { uids := ["dave"], nodeId := 2 }] }
      (by decide),
    by decide, by decide, by decide, by decide⟩

/-- C15 fails on the code for `handleForwardSendack`: for a forwarded sendack whose connection
(alice, 99) is not found, the handler performs no write but answers with `c.WriteErr`, the plain
error answer, and not with the status `errCodeConnNotFound`; its sibling `handleConnWrite`, for
the same missing connection, answers with `ErrConnNotFound` and the status
`errCodeConnNotFound`. -/
theorem handleForwardSendack_conn_not_found :
    Demo.clusterServer.getConnContextById "alice" 99 = none ∧
    Demo.clusterServer.unmarshalForwardSendackPacketSet [99, 1]
      = .ok [{ uid := "alice", deviceId := "d1", connId := 99, sendack := [1] }] ∧
    handleForwardSendack Demo.clusterServer [99, 1] =
      [.error "handleForwardSendack: conn not found", .writeErr "conn not found"] ∧
    Demo.clusterServer.unmarshalFowardWriteReq [99, 1]
      = .ok { uid := "alice", connId := 99, recvFrameCount := 1, data := [1] } ∧
    handleConnWrite Demo.clusterServer [99, 1] =
      [.error "handleConnWrite: conn not found",
        .writeErrorAndStatus "conn not found" Demo.clusterServer.errCodeConnNotFound] :=
  ⟨by decide, rfl, by decide, rfl, by decide⟩

end Server

/-! ## Claims about sealing and about failures in the loop body -/

namespace deliverr

theorem newRecvPacket_payload (s : Server) (t : Nat) (c : ConnContext)
    (m : ReactorChannelMessage) :
    (newRecvPacket s t c m).payload = m.sendPacket.payload := by
  simp only [newRecvPacket]
  split_ifs <;> rfl

/-- The two encryption calls behind a sealed packet. -/
theorem sealedRecvPacket_calls {s : Server} {t : Nat} {c : ConnContext}
    {m : ReactorChannelMessage} {pkt : RecvPacket} (h : sealedRecvPacket s t c m = .ok pkt) :
    ∃ payloadEnc msgKeyBytes,
      s.aesEncryptPkcs7Base64 (newRecvPacket s t c m).payload (stringBytes c.aesKey)
          (stringBytes c.aesIV) = .ok payloadEnc ∧
      s.aesEncryptPkcs7Base64
          (stringBytes (s.verityString { newRecvPacket s t c m with payload := payloadEnc }))
          (stringBytes c.aesKey) (stringBytes c.aesIV) = .ok msgKeyBytes ∧
      pkt = { newRecvPacket s t c m with payload := payloadEnc, msgKey := s.md5 msgKeyBytes } := by
  unfold sealedRecvPacket at h
  dsimp only at h
  split at h
  · cases h
  · rename_i payloadEnc henc
    split at h
    · cases h
    · rename_i msgKey hkey
      cases h
      unfold encryptMessagePayload at henc
      split at henc
      · cases henc
      · rename_i pe hpe
        cases henc
        unfold makeMsgKey at hkey
        split at hkey
        · cases hkey
        · rename_i kb hkb
          cases hkey
          exact ⟨_, _, hpe, hkb, rfl⟩

/-- C16: sealing.  For every write of `deliver` for `(conn, message)` there is the packet that
was sealed and encoded into the written bytes; its `Payload` is
`AesEncryptPkcs7Base64(original payload, conn.aesKey, conn.aesIV)` and its `MsgKey` is the MD5 of
`AesEncryptPkcs7Base64(V, conn.aesKey, conn.aesIV)`, where `V` is the verification string of the
packet taken once the payload has been replaced by its encrypted form.  Consequently another
pair that builds a packet with the same fields under the same `(aesKey, aesIV)` is sealed into a
packet with the same `MsgKey`. -/
theorem deliver_sealing (s : Server) (tick : Nat) (req : deliverReq)
    (uids : List String) (k : Nat) (conn : ConnContext) (message : ReactorChannelMessage)
    (data : Bytes) (ft : Nat)
    (hw : (⟨some ⟨k, conn, message⟩, .connWrite conn data ft⟩ : Event) ∈
      deliver s tick req uids) :
    ∃ pkt payloadEnc msgKeyBytes,
      sealedRecvPacket s k conn message = .ok pkt ∧
      s.encodeFrame pkt conn.protoVersion = .ok data ∧
      s.aesEncryptPkcs7Base64 message.sendPacket.payload (stringBytes conn.aesKey)
          (stringBytes conn.aesIV) = .ok payloadEnc ∧
      pkt.payload = payloadEnc ∧
      s.aesEncryptPkcs7Base64
          (stringBytes
            (s.verityString { newRecvPacket s k conn message with payload := payloadEnc }))
          (stringBytes conn.aesKey) (stringBytes conn.aesIV) = .ok msgKeyBytes ∧
      pkt.msgKey = s.md5 msgKeyBytes ∧
      ∀ k2 conn2 message2 pkt2,
        newRecvPacket s k2 conn2 message2 = newRecvPacket s k conn message →
        conn2.aesKey = conn.aesKey → conn2.aesIV = conn.aesIV →
        sealedRecvPacket s k2 conn2 message2 = .ok pkt2 → pkt2.msgKey = pkt.msgKey := by
  obtain ⟨pkt, _, _, hpkt, hdata, _⟩ := packet_of_connWrite hw
  obtain ⟨pe, kb, hpe, hkb, hp⟩ := sealedRecvPacket_calls hpkt
  refine ⟨pkt, pe, kb, hpkt, hdata, ?_, ?_, hkb, ?_, ?_⟩
  · rw [← newRecvPacket_payload s k conn message]
    exact hpe
  · rw [hp]
  · rw [hp]
  · intro k2 conn2 message2 pkt2 hnew hkey hiv hpkt2
    obtain ⟨pe2, kb2, hpe2, hkb2, hp2⟩ := sealedRecvPacket_calls hpkt2
    rw [hnew, hkey, hiv] at hpe2 hkb2
    rw [hpe] at hpe2
    cases hpe2
    rw [hkb] at hkb2
    cases hkb2
    rw [hp2, hp]

/-- Evaluation of C16: bob's message written to alice's phone under the stand-in cipher (key
bytes in front of the data) and digest. -/
theorem deliver_sealing_witness :
    (⟨some ⟨0, Demo.aliceApp, Demo.fromBob⟩,
        .connWrite Demo.aliceApp [103, 49, 107, 49, 104, 105] 5⟩ : Event) ∈
      deliver Demo.server 0 (Demo.request [Demo.fromBob]) ["alice"] ∧
    (∃ pkt payloadEnc msgKeyBytes,
      sealedRecvPacket Demo.server 0 Demo.aliceApp Demo.fromBob = .ok pkt ∧
      Demo.server.encodeFrame pkt Demo.aliceApp.protoVersion
        = .ok [103, 49, 107, 49, 104, 105] ∧
      Demo.server.aesEncryptPkcs7Base64 Demo.fromBob.sendPacket.payload
          (stringBytes Demo.aliceApp.aesKey) (stringBytes Demo.aliceApp.aesIV)
        = .ok payloadEnc ∧
      pkt.payload = payloadEnc ∧
      Demo.server.aesEncryptPkcs7Base64
          (stringBytes
            (Demo.server.verityString
              { newRecvPacket Demo.server 0 Demo.aliceApp Demo.fromBob with
                payload := payloadEnc }))
          (stringBytes Demo.aliceApp.aesKey) (stringBytes Demo.aliceApp.aesIV)
        = .ok msgKeyBytes ∧
      pkt.msgKey = Demo.server.md5 msgKeyBytes ∧
      ∀ k2 conn2 message2 pkt2,
        newRecvPacket Demo.server k2 conn2 message2
          = newRecvPacket Demo.server 0 Demo.aliceApp Demo.fromBob →
        conn2.aesKey = Demo.aliceApp.aesKey → conn2.aesIV = Demo.aliceApp.aesIV →
        sealedRecvPacket Demo.server k2 conn2 message2 = .ok pkt2 →
        pkt2.msgKey = pkt.msgKey) ∧
    (∃ pkt, sealedRecvPacket Demo.server 0 Demo.aliceApp Demo.fromBob = .ok pkt ∧
      pkt.payload = [107, 49, 104, 105] ∧ pkt.msgKey = "k1g1") :=
  ⟨by decide,
    deliver_sealing Demo.server 0 (Demo.request [Demo.fromBob]) ["alice"] 0 Demo.aliceApp
      Demo.fromBob [103, 49, 107, 49, 104, 105] 5 (by decide),
    ⟨_, rfl, by decide, by decide⟩⟩

end deliverr

namespace deliverr

theorem classify_writeOk (s : Server) (w : Nat → ConnContext → Bytes → Bool)
    (ic : Nat → ConnContext → Bool) :
    ∀ (uids : List String) (acc : Recipients),
      classify { s with writeOk := w, isClosed := ic } uids acc = classify s uids acc
  | [], acc => rfl
  | toUid :: rest, acc => by
    unfold classify
    dsimp only
    cases s.getUser toUid with
    | none => exact classify_writeOk s w ic rest _
    | some u =>
      dsimp only
      split
      · exact classify_writeOk s w ic rest _
      · exact classify_writeOk s w ic rest _

theorem sealedRecvPacket_error_not_failure {s : Server} {t : Nat} {c : ConnContext}
    {m : ReactorChannelMessage} {logs : List Effect}
    (h : sealedRecvPacket s t c m = .error logs) :
    ∀ eff ∈ logs, eff.isWriteFailure = false := by
  unfold sealedRecvPacket at h
  dsimp only at h
  split at h
  · cases h
    intro eff he
    simp only [List.mem_singleton] at he
    subst he
    decide
  · split at h
    · rename_i log _ hk
      cases h
      unfold makeMsgKey at hk
      split at hk
      · cases hk
        intro eff he
        simp only [List.mem_cons, List.mem_singleton, List.not_mem_nil, or_false] at he
        rcases he with he | he <;> subst he <;> decide
      · cases hk
    · cases h

/-- Dropping the failure handling from the effects of a loop iteration gives the effects of the
iteration in a run where every write succeeds. -/
theorem pairEffects_filter_failure (s : Server) (k : Nat) (c : ConnContext)
    (m : ReactorChannelMessage) :
    (pairEffects s k c m).filter (fun eff => !eff.isWriteFailure)
      = pairEffects { s with writeOk := fun _ _ _ => true } k c m := by
  have hseal : sealedRecvPacket { s with writeOk := fun _ _ _ => true } k c m
      = sealedRecvPacket s k c m := rfl
  unfold pairEffects
  rw [hseal]
  by_cases hself : c.uid = m.fromUid ∧ c.deviceId = m.fromDeviceId
  · simp [hself]
  · rw [if_neg hself, if_neg hself]
    rw [List.filter_append]
    have hdbg : [Effect.debug "deliver message to user"].filter
        (fun eff => !eff.isWriteFailure) = [Effect.debug "deliver message to user"] := by
      decide
    rw [hdbg]
    congr 1
    cases hpkt : sealedRecvPacket s k c m with
    | error logs =>
      dsimp only
      rw [List.filter_eq_self]
      intro eff he
      simp [sealedRecvPacket_error_not_failure hpkt eff he]
    | ok pkt =>
      dsimp only
      cases hdata : s.encodeFrame pkt c.protoVersion with
      | error err =>
        dsimp only
        decide
      | ok data =>
        dsimp only
        unfold emit
        by_cases h1 : pkt.framer.noPersist <;> by_cases h2 : s.writeOk k c data <;>
          by_cases h3 : s.isClosed k c <;>
          simp [h1, h2, h3, List.filter_cons, Effect.isWriteFailure]

end deliverr

namespace deliverr

theorem deliverPair_filter_failure (s : Server) (k : Nat) (c : ConnContext)
    (m : ReactorChannelMessage) :
    (deliverPair s k c m).filter (fun e => !e.eff.isWriteFailure)
      = deliverPair { s with writeOk := fun _ _ _ => true } k c m := by
  unfold deliverPair
  rw [← pairEffects_filter_failure, List.filter_map]
  rfl

theorem deliverMessages_filter_failure (s : Server) (c : ConnContext) :
    ∀ (ms : List ReactorChannelMessage) (t : Nat),
      (deliverMessages s c t ms).filter (fun e => !e.eff.isWriteFailure)
        = deliverMessages { s with writeOk := fun _ _ _ => true } c t ms
  | [], t => rfl
  | m :: rest, t => by
    rw [deliverMessages, deliverMessages, List.filter_append, deliverPair_filter_failure,
      deliverMessages_filter_failure s c rest (t + 1)]

theorem deliverConns_filter_failure (s : Server) (ms : List ReactorChannelMessage) :
    ∀ (cs : List ConnContext) (t : Nat),
      (deliverConns s ms t cs).filter (fun e => !e.eff.isWriteFailure)
        = deliverConns { s with writeOk := fun _ _ _ => true } ms t cs
  | [], t => rfl
  | c :: rest, t => by
    rw [deliverConns, deliverConns, List.filter_append, deliverMessages_filter_failure,
      deliverConns_filter_failure s ms rest (t + ms.length)]

theorem traceDeliver_filter_failure (s : Server) (req : deliverReq) (uids : List String) :
    (traceDeliver s req uids).filter (fun e => !e.eff.isWriteFailure)
      = traceDeliver s req uids := by
  rw [List.filter_eq_self]
  intro e he
  unfold traceDeliver at he
  split at he
  · rcases List.mem_flatMap.mp he with ⟨msg, _, hm⟩
    split at hm
    · dsimp only at hm
      split at hm
      · simp only [List.mem_singleton] at hm
        rw [hm]
        rfl
      · cases hm
    · cases hm
  · cases he

theorem notifyOffline_filter_failure (req : deliverReq) (w : List String) :
    (notifyOffline req w).filter (fun e => !e.eff.isWriteFailure) = notifyOffline req w := by
  rw [List.filter_eq_self]
  intro e he
  unfold notifyOffline at he
  split at he
  · rcases List.mem_map.mp he with ⟨m, _, rfl⟩
    rfl
  · cases he

theorem deliverMessages_eq_flatMap (s : Server) (c : ConnContext) :
    ∀ (ms : List ReactorChannelMessage) (t : Nat),
      deliverMessages s c t ms =
        ((ms.map fun m => (c, m)).enumFrom t).flatMap
          fun p => deliverPair s p.1 p.2.1 p.2.2
  | [], t => rfl
  | m :: rest, t => by
    rw [deliverMessages, deliverMessages_eq_flatMap s c rest (t + 1), List.map_cons,
      List.enumFrom_cons, List.flatMap_cons]

theorem deliverConns_eq_flatMap (s : Server) (ms : List ReactorChannelMessage) :
    ∀ (cs : List ConnContext) (t : Nat),
      deliverConns s ms t cs =
        ((cs.flatMap fun c => ms.map fun m => (c, m)).enumFrom t).flatMap
          fun p => deliverPair s p.1 p.2.1 p.2.2
  | [], t => rfl
  | c :: rest, t => by
    rw [deliverConns, deliverMessages_eq_flatMap, deliverConns_eq_flatMap s ms rest,
      List.flatMap_cons, List.enumFrom_append, List.flatMap_append, List.length_map]

/-- C17: failures in the loop body.
(1) Leaving out the handling of failed writes (the error log and the close) from the trace of
`deliver` gives exactly the trace of the run in which every write succeeds: after a failed write
every other pair is handled as if the write had succeeded, and the webhook phase runs.
(2) For a pair that is written, `conn.close()` is called if and only if the write fails and the
connection is not already closed.
(3) When the offline list is not empty, the webhook is called for every message of the request,
whatever the writes and the sealing do.
(4) A pair whose payload encryption, message-key derivation or frame encoding fails has no retry
registration and no write.
(5) The trace is the tracing block, then the effects of the loop body for every iteration of
`allConns × messages` in order, then the webhook block: a failure in one iteration ends that
iteration only.
(6) So every iteration on a pair that is not self-sent and whose packet is sealed and encoded
has its write in the trace (and its retry registration when the packet is stored), whichever
other iterations failed. -/
theorem deliver_failures (s : Server) (tick : Nat) (req : deliverReq) (uids : List String)
    (k : Nat) (conn : ConnContext) (message : ReactorChannelMessage) :
    (deliver s tick req uids).filter (fun e => !e.eff.isWriteFailure)
      = deliver { s with writeOk := fun _ _ _ => true } tick req uids ∧
    (∀ data ft,
      (⟨some ⟨k, conn, message⟩, .connWrite conn data ft⟩ : Event) ∈ deliver s tick req uids →
      ((⟨some ⟨k, conn, message⟩, .connClose conn⟩ : Event) ∈ deliver s tick req uids ↔
        s.writeOk k conn data = false ∧ s.isClosed k conn = false)) ∧
    (uids ≠ [] → (recipients s uids).webhookOfflineUids ≠ [] → ∀ m ∈ req.messages,
      (⟨none, .notifyOfflineMsg m (recipients s uids).webhookOfflineUids⟩ : Event) ∈
        deliver s tick req uids) ∧
    (((∃ logs, sealedRecvPacket s k conn message = .error logs) ∨
        ∃ pkt err, sealedRecvPacket s k conn message = .ok pkt ∧
          s.encodeFrame pkt conn.protoVersion = .error err) →
      (deliver s tick req uids).filter
        (fun e => decide (e.site = some ⟨k, conn, message⟩) &&
          (e.eff.isAddRetry || e.eff.isConnWrite)) = []) ∧
    (uids ≠ [] →
      deliver s tick req uids =
        traceDeliver s req uids
          ++ (iterations s tick req uids).flatMap (fun p => deliverPair s p.1 p.2.1 p.2.2)
          ++ notifyOffline req (recipients s uids).webhookOfflineUids) ∧
    (∀ pkt data, (k, conn, message) ∈ iterations s tick req uids →
      isSelfSent conn message = false →
      sealedRecvPacket s k conn message = .ok pkt →
      s.encodeFrame pkt conn.protoVersion = .ok data →
      (⟨some ⟨k, conn, message⟩, .connWrite conn data s.frameTypeRECV⟩ : Event) ∈
          deliver s tick req uids ∧
        (pkt.framer.noPersist = false →
          (⟨some ⟨k, conn, message⟩, .addRetry
            { uid := conn.uid, connId := conn.connId, messageId := message.messageId,
              recvPacketData := data }⟩ : Event) ∈ deliver s tick req uids)) := by
  have hflat : uids ≠ [] →
      deliver s tick req uids =
        traceDeliver s req uids
          ++ (iterations s tick req uids).flatMap (fun p => deliverPair s p.1 p.2.1 p.2.2)
          ++ notifyOffline req (recipients s uids).webhookOfflineUids := by
    intro hne
    unfold deliver iterations
    rw [if_neg (by simpa using hne)]
    dsimp only
    rw [deliverConns_eq_flatMap]
  refine ⟨?_, ?_, ?_, ?_, hflat, ?_⟩
  · have hrec : recipients { s with writeOk := fun _ _ _ => true } uids = recipients s uids :=
      classify_writeOk s (fun _ _ _ => true) s.isClosed uids _
    unfold deliver
    rw [hrec]
    split
    · rfl
    · rw [List.filter_append, List.filter_append, traceDeliver_filter_failure,
        deliverConns_filter_failure, notifyOffline_filter_failure]
      rfl
  · intro data ft hw
    have hmem := eff_mem_pairEffects_of_mem_deliver hw
    obtain ⟨pkt, _, hpkt, hdata, _, hft, heq⟩ := pairEffects_of_connWrite hmem
    dsimp only at heq
    have hclose : Effect.connClose conn ∈ pairEffects s k conn message ↔
        s.writeOk k conn data = false ∧ s.isClosed k conn = false := by
      rw [heq]
      unfold emit
      by_cases h1 : pkt.framer.noPersist <;> by_cases h2 : s.writeOk k conn data <;>
        by_cases h3 : s.isClosed k conn <;> simp [h1, h2, h3]
    constructor
    · intro hc
      exact hclose.mp (eff_mem_pairEffects_of_mem_deliver hc)
    · intro hc
      obtain ⟨pre, post, hsplit, _, _, _, _⟩ := split_deliver hw rfl
      rw [hsplit]
      apply List.mem_append_left
      apply List.mem_append_right
      unfold deliverPair
      exact List.mem_map.mpr ⟨_, hclose.mpr hc, rfl⟩
  · intro hne hoff m hm
    unfold deliver
    rw [if_neg (by simpa using hne)]
    apply List.mem_append_right
    unfold notifyOffline
    rw [if_pos (List.length_pos.mpr hoff)]
    exact List.mem_map.mpr ⟨m, hm, rfl⟩
  · intro hfail
    rw [List.filter_eq_nil_iff]
    intro e he
    by_cases hs : e.site = some ⟨k, conn, message⟩
    · have h := mem_deliverPair_of_mem_deliver he hs
      unfold deliverPair at h
      rcases List.mem_map.mp h with ⟨eff, h1, h2⟩
      dsimp only at h1
      have hno : eff.isAddRetry = false ∧ eff.isConnWrite = false := by
        unfold pairEffects at h1
        split at h1
        · cases h1
        · simp only [List.singleton_append, List.mem_cons] at h1
          rcases h1 with h1 | h1
          · subst h1
            exact ⟨rfl, rfl⟩
          · rcases hfail with ⟨logs, hl⟩ | ⟨pkt, err, hp, hen⟩
            · rw [hl] at h1
              obtain ⟨msg, hmsg⟩ := sealedRecvPacket_error hl eff h1
              subst hmsg
              exact ⟨rfl, rfl⟩
            · rw [hp] at h1
              dsimp only at h1
              rw [hen] at h1
              simp only [List.mem_singleton] at h1
              subst h1
              exact ⟨rfl, rfl⟩
      rw [← h2]
      simp [hno.1, hno.2]
    · simp [hs]
  · intro pkt data hit hself hpkt hdata
    have hne : uids ≠ [] := by
      intro h0
      subst h0
      simp [iterations, recipients, classify] at hit
    have hself1 : ¬ (conn.uid = message.fromUid ∧ conn.deviceId = message.fromDeviceId) := by
      simpa [isSelfSent] using hself
    have hpair : ∀ eff ∈ emit s k conn message pkt data,
        (⟨some ⟨k, conn, message⟩, eff⟩ : Event) ∈ deliver s tick req uids := by
      intro eff heff
      rw [hflat hne]
      apply List.mem_append_left
      apply List.mem_append_right
      refine List.mem_flatMap.mpr ⟨(k, conn, message), hit, ?_⟩
      unfold deliverPair pairEffects
      rw [if_neg hself1, hpkt]
      dsimp only
      rw [hdata]
      exact List.mem_map.mpr ⟨eff, List.mem_append_right _ heff, rfl⟩
    constructor
    · apply hpair
      unfold emit
      simp
    · intro hnp
      apply hpair
      unfold emit
      simp [hnp]

/-- Evaluation of C17: the write of bob's message to alice's phone fails on an open
connection: the connection is closed, carol's message is still written to the phone, and the
webhook is called for bob.  And with an encoder that rejects message 7: the copy of message 7
for alice's browser (iteration 2) is neither registered nor written, and bob's message, the next
iteration, is still written to the browser. -/
theorem deliver_failures_witness :
    (⟨some ⟨0, Demo.aliceApp, Demo.fromBob⟩,
        .connWrite Demo.aliceApp [103, 49, 107, 49, 104, 105] 5⟩ : Event) ∈
      deliver Demo.serverWriteFails 0 (Demo.request [Demo.fromBob, Demo.fromCarol])
        ["alice", "bob"] ∧
    ((⟨some ⟨0, Demo.aliceApp, Demo.fromBob⟩, .connClose Demo.aliceApp⟩ : Event) ∈
        deliver Demo.serverWriteFails 0 (Demo.request [Demo.fromBob, Demo.fromCarol])
          ["alice", "bob"] ↔
      Demo.serverWriteFails.writeOk 0 Demo.aliceApp [103, 49, 107, 49, 104, 105] = false ∧
        Demo.serverWriteFails.isClosed 0 Demo.aliceApp = false) ∧
    ((deliver Demo.serverWriteFails 0 (Demo.request [Demo.fromBob, Demo.fromCarol])
        ["alice", "bob"]).map fun e => e.eff) =
      [ .debug "deliver message to user",
        .addRetry { uid := "alice", connId := 11, messageId := 42,
                    recvPacketData := [103, 49, 107, 49, 104, 105] },
        .connWrite Demo.aliceApp [103, 49, 107, 49, 104, 105] 5,
        .error "write recvPacket failed",
        .connClose Demo.aliceApp,
        .debug "deliver message to user",
        .addRetry { uid := "alice", connId := 11, messageId := 42,
                    recvPacketData := [103, 49, 107, 49, 104, 105] },
        .connWrite Demo.aliceApp [103, 49, 107, 49, 104, 105] 5,
        .debug "deliver message to user",
        .addRetry { uid := "alice", connId := 12, messageId := 42,
                    recvPacketData := [103, 49, 107, 50, 104, 105] },
        .connWrite Demo.aliceWeb [103, 49, 107, 50, 104, 105] 5,
        .debug "deliver message to user",
        .addRetry { uid := "alice", connId := 12, messageId := 42,
                    recvPacketData := [103, 49, 107, 50, 104, 105] },
        .connWrite Demo.aliceWeb [103, 49, 107, 50, 104, 105] 5,
        .notifyOfflineMsg Demo.fromBob ["bob"],
        .notifyOfflineMsg Demo.fromCarol ["bob"] ] ∧
    ((∃ pkt err, sealedRecvPacket Demo.serverEncodeFails 2 Demo.aliceWeb Demo.fromAlicePhone
          = .ok pkt ∧
        Demo.serverEncodeFails.encodeFrame pkt Demo.aliceWeb.protoVersion = .error err) ∧
      (deliver Demo.serverEncodeFails 0 (Demo.request [Demo.fromAlicePhone, Demo.fromBob])
          ["alice"]).filter
        (fun e => decide (e.site = some ⟨2, Demo.aliceWeb, Demo.fromAlicePhone⟩) &&
          (e.eff.isAddRetry || e.eff.isConnWrite)) = []) ∧
    (((3, Demo.aliceWeb, Demo.fromBob) ∈
        iterations Demo.serverEncodeFails 0 (Demo.request [Demo.fromAlicePhone, Demo.fromBob])
          ["alice"] ∧
      isSelfSent Demo.aliceWeb Demo.fromBob = false) ∧
      (⟨some ⟨3, Demo.aliceWeb, Demo.fromBob⟩,
          .connWrite Demo.aliceWeb [103, 49, 107, 50, 104, 105]
            Demo.serverEncodeFails.frameTypeRECV⟩ : Event) ∈
        deliver Demo.serverEncodeFails 0 (Demo.request [Demo.fromAlicePhone, Demo.fromBob])
          ["alice"]) ∧
    ((deliver Demo.serverEncodeFails 0 (Demo.request [Demo.fromAlicePhone, Demo.fromBob])
        ["alice"]).map fun e => e.eff) =
      [ .debug "deliver message to user",
        .addRetry { uid := "alice", connId := 11, messageId := 42,
                    recvPacketData := [103, 49, 107, 49, 104, 105] },
        .connWrite Demo.aliceApp [103, 49, 107, 49, 104, 105] 5,
        .debug "deliver message to user",
        .error "encode recvPacket failed",
        .debug "deliver message to user",
        .addRetry { uid := "alice", connId := 12, messageId := 42,
                    recvPacketData := [103, 49, 107, 50, 104, 105] },
        .connWrite Demo.aliceWeb [103, 49, 107, 50, 104, 105] 5 ] :=
  ⟨by decide,
    (deliver_failures Demo.serverWriteFails 0 (Demo.request [Demo.fromBob, Demo.fromCarol])
      ["alice", "bob"] 0 Demo.aliceApp Demo.fromBob).2.1 [103, 49, 107, 49, 104, 105] 5
      (by decide),
    by decide,
    ⟨⟨_, _, rfl, rfl⟩,
      (deliver_failures Demo.serverEncodeFails 0
        (Demo.request [Demo.fromAlicePhone, Demo.fromBob]) ["alice"]
        2 Demo.aliceWeb Demo.fromAlicePhone).2.2.2.1 (Or.inr ⟨_, _, rfl, rfl⟩)⟩,
    ⟨⟨by decide, by decide⟩,
      ((deliver_failures Demo.serverEncodeFails 0
        (Demo.request [Demo.fromAlicePhone, Demo.fromBob]) ["alice"]
        3 Demo.aliceWeb Demo.fromBob).2.2.2.2.2 _ [103, 49, 107, 50, 104, 105]
        (by decide) (by decide) rfl rfl).1⟩,
    by decide⟩

end deliverr

/-! ## Claims about the node pong handler -/

namespace Server

theorem pongConn_eq (fromNodeId : Nat) (uc : userConns) (c : ConnContext) :
    pongConn fromNodeId uc c =
      if c.realNodeId = fromNodeId ∧ c.proxyConnId ∉ uc.connIds then
        [.info "handleNodePong: close conn", .removeConnContextById uc.uid c.connId,
          .connClose c]
      else [] := by
  unfold pongConn
  by_cases h1 : c.realNodeId = fromNodeId
  · by_cases h2 : c.proxyConnId ∈ uc.connIds
    · have hany : (uc.connIds.any fun connId =>
          decide (c.realNodeId = fromNodeId ∧ c.proxyConnId = connId)) = true := by
        rw [List.any_eq_true]
        exact ⟨c.proxyConnId, h2, by simp [h1]⟩
      simp [h1, h2, hany]
    · have hany : (uc.connIds.any fun connId =>
          decide (c.realNodeId = fromNodeId ∧ c.proxyConnId = connId)) = false := by
        rw [List.any_eq_false]
        intro x hx
        have : c.proxyConnId ≠ x := fun h => h2 (h ▸ hx)
        simp [this]
      simp [h1, h2, hany]
  · simp [h1]

/-- C18: the node pong handler.  For a decoded pong naming a known user (by a non-empty uid),
the effects of `handleNodePong` are, for each connection `c` of the user in order, the log, the
removal of `c` (by `c.connId`) and the close of `c` when `c.realNodeId == fromNodeId` and
`c.proxyConnId` is not among the reported connection ids, and nothing otherwise, followed by the
pong step of the user.  So `c` is closed if and only if it is a connection of the user with
`c.realNodeId == fromNodeId` whose `proxyConnId` is not reported; the test does not read
`c.connId`. -/
theorem handleNodePong_removes (s : ClusterServer) (fromNodeId : Nat) (content : Bytes)
    (uc : userConns) (userHandler : UserHandler)
    (hcontent : s.unmarshalUserConns content = .ok uc) (huid : uc.uid ≠ "")
    (huser : s.getUser uc.uid = some userHandler) :
    handleNodePong s fromNodeId content =
      (userHandler.conns.flatMap fun c =>
        if c.realNodeId = fromNodeId ∧ c.proxyConnId ∉ uc.connIds then
          [ClusterEffect.info "handleNodePong: close conn",
            .removeConnContextById uc.uid c.connId, .connClose c]
        else [])
      ++ [.step uc.uid s.userActionNodePong fromNodeId] ∧
    (∀ c, ClusterEffect.connClose c ∈ handleNodePong s fromNodeId content ↔
      c ∈ userHandler.conns ∧ c.realNodeId = fromNodeId ∧ c.proxyConnId ∉ uc.connIds) ∧
    (∀ c connId, pongConn fromNodeId uc { c with connId := connId }
      = (pongConn fromNodeId uc c).map fun eff =>
          match eff with
          | .removeConnContextById uid _ => .removeConnContextById uid connId
          | .connClose c1 => .connClose { c1 with connId := connId }
          | other => other) := by
  have heq : handleNodePong s fromNodeId content =
      (userHandler.conns.flatMap fun c =>
        if c.realNodeId = fromNodeId ∧ c.proxyConnId ∉ uc.connIds then
          [ClusterEffect.info "handleNodePong: close conn",
            .removeConnContextById uc.uid c.connId, .connClose c]
        else [])
      ++ [.step uc.uid s.userActionNodePong fromNodeId] := by
    unfold handleNodePong
    rw [hcontent]
    dsimp only
    rw [if_neg huid, huser]
    dsimp only
    congr 1
    apply List.flatMap_congr
    intro c _
    exact pongConn_eq fromNodeId uc c
  refine ⟨heq, ?_, ?_⟩
  · intro c
    rw [heq]
    simp only [List.mem_append, List.mem_flatMap, List.mem_singleton]
    constructor
    · rintro (⟨c1, hc1, hmem⟩ | h)
      · split at hmem
        · rename_i hcond
          simp only [List.mem_cons, List.mem_singleton, List.not_mem_nil, or_false] at hmem
          rcases hmem with h | h | h
          · cases h
          · cases h
          · cases h
            exact ⟨hc1, hcond⟩
        · cases hmem
      · cases h
    · rintro ⟨hc, hcond⟩
      refine Or.inl ⟨c, hc, ?_⟩
      rw [if_pos hcond]
      simp
  · intro c connId
    rw [pongConn_eq, pongConn_eq]
    dsimp only
    split <;> rfl

/-- Evaluation of C18: node 2 reports the connection id 70 for alice.  Her phone (a connection
of node 1) and her proxied connection with `proxyConnId = 70` stay; her proxied connection with
`proxyConnId = 71` is removed and closed, although its local `connId` is 70. -/
theorem handleNodePong_removes_witness :
    (Demo.clusterServerProxy.unmarshalUserConns [70] = .ok { uid := "alice", connIds := [70] } ∧
      ({ uid := "alice", connIds := [70] } : userConns).uid ≠ "" ∧
      Demo.clusterServerProxy.getUser "alice" =
        some { hasMasterDevice := true
               conns := [Demo.aliceApp, Demo.aliceProxy, Demo.aliceProxyOld] }) ∧
    (∀ c, ClusterEffect.connClose c ∈ handleNodePong Demo.clusterServerProxy 2 [70] ↔
      c ∈ [Demo.aliceApp, Demo.aliceProxy, Demo.aliceProxyOld] ∧ c.realNodeId = 2 ∧
        c.proxyConnId ∉ ([70] : List Int)) ∧
    handleNodePong Demo.clusterServerProxy 2 [70] =
      [.info "handleNodePong: close conn", .removeConnContextById "alice" 70,
        .connClose Demo.aliceProxyOld, .step "alice" 12 2] :=
  ⟨⟨rfl, by decide, rfl⟩,
    (handleNodePong_removes Demo.clusterServerProxy 2 [70] { uid := "alice", connIds := [70] }
      { hasMasterDevice := true, conns := [Demo.aliceApp, Demo.aliceProxy, Demo.aliceProxyOld] }
      rfl (by decide) rfl).2.1,
    by decide⟩

end Server

end WuKongIM
